import Mathlib

/-!
Verification development for the SpyTON buy-alert bot.

The definitions below are a shallow embedding of the trade ingestion and
notification pipeline of `src/main.py` (functions `dedupe_ok`,
`anti_spam_limit`, `min_buy_ton_threshold`, `dedust_trade_to_buy`,
`_normalize_tx_hash_to_hex`, `warmup_seen_for_chat`, the STON and DeDust
sections of `poll_once`) and of `fetch_new_trades` from
`src/bot/monitor.py`.

Modelling conventions:
* Python float amounts are modelled as rationals (all comparisons and the
  divisions by powers of ten appearing in the source are exact on the
  values involved).
* Python timestamps / block numbers are modelled as `Int`.
* A raw JSON record is modelled as a structure holding exactly the values
  the source extracts from it: a chain such as
  `tr.get("tx") or tr.get("txHash") or tr.get("hash")` becomes one field
  holding the first truthy value of the chain (`""` when all are absent).
* The per-chat `SEEN` bucket (a Python dict key -> timestamp) is an
  insertion-ordered association list.
* `token["last_dedust_trade"]` is stored as a decimal string and read back
  with `int(str(... or 0))`; the stored string is modelled by its integer
  value (the write `str(max_seen_lt)` and the read are exact inverses).
* The external world of one poll cycle (upstream pages, head block, price
  lookup, notification outcomes) is a `CycleEnv`.  `post_buy` wraps every
  network access, including the Telegram send, in `try/except`, so it
  never raises; the pipeline ignores its outcome, which the model records
  in the emit log as the `ok` field supplied by the `emit_ok` oracle.
-/

/-- Python `a or b` on strings: `b` when `a` is empty (falsy), else `a`. -/
def orS (a b : String) : String := if a = "" then b else a

/-- Decimal digits parser: `none` when a non-digit appears (the empty
list parses to 0 and is excluded by the callers). -/
def parseDigits (cs : List Char) : Option Nat :=
  cs.foldl
    (fun acc c =>
      match acc with
      | none => none
      | some n => if c.isDigit then some (n * 10 + (c.toNat - 48)) else none)
    (some 0)

/-- Python `int(s)` on a stripped decimal string (optional sign, digits),
`none` on failure.  (Python also accepts `+`, inner underscores and
surrounding whitespace; the feeds' numeric ids never carry those.) -/
def pyToInt? (s : String) : Option Int :=
  match s.toList with
  | [] => none
  | c :: rest =>
    if c = '-' then
      match rest, parseDigits rest with
      | _ :: _, some n => some (-(n : Int))
      | _, _ => none
    else
      match parseDigits (c :: rest) with
      | some n => some ((n : Int))
      | none => none

/-- Python `int(s)` with `try/except` returning 0 on failure, as in the
`lt_raw` parsing of `poll_once`. -/
def pyToInt (s : String) : Int := (pyToInt? s).getD 0

/-- ASCII lowercase of one character (Python `str.lower()`; every string
the source lowercases or compares after lowercasing is ASCII). -/
def lowerChar (c : Char) : Char :=
  if 'A' ≤ c ∧ c ≤ 'Z' then Char.ofNat (c.toNat + 32) else c

/-- ASCII lowercase of a string. -/
def lowerStr (s : String) : String := String.mk (s.toList.map lowerChar)

/-- ASCII uppercase of one character (Python `str.upper()`). -/
def upperChar (c : Char) : Char :=
  if 'a' ≤ c ∧ c ≤ 'z' then Char.ofNat (c.toNat - 32) else c

/-- ASCII uppercase of a string. -/
def upperStr (s : String) : String := String.mk (s.toList.map upperChar)

/-- Timestamp normalization from `poll_once` / `warmup_seen_for_chat`:
values larger than 10_000_000_000 are milliseconds and are floor-divided
by 1000 (Python `//`). -/
def normTs (t : Int) : Int := if t > 10000000000 then Int.fdiv t 1000 else t

/-- One character of the `[0-9a-fA-F]` class used by the hex regex of
`_normalize_tx_hash_to_hex`. -/
def isHexChar (c : Char) : Bool :=
  c.isDigit || ('a' ≤ c && c ≤ 'f') || ('A' ≤ c && c ≤ 'F')

/-- `re.fullmatch(r"[0-9a-fA-F]{64}", s)`: exactly 64 hex characters. -/
def isHex64 (s : String) : Bool :=
  s.length = 64 && s.toList.all isHexChar

/-- Value of one base64url alphabet character (also accepting the standard
alphabet, as `urlsafe_b64decode` does after translation). -/
def b64Char (c : Char) : Option Nat :=
  if 'A' ≤ c ∧ c ≤ 'Z' then some (c.toNat - 65)
  else if 'a' ≤ c ∧ c ≤ 'z' then some (c.toNat - 71)
  else if '0' ≤ c ∧ c ≤ '9' then some (c.toNat + 4)
  else if c = '-' ∨ c = '+' then some 62
  else if c = '_' ∨ c = '/' then some 63
  else none

/-- Bit-accumulating step of the base64 decoder: state is
(pending bits value, number of pending bits, produced bytes reversed). -/
def b64Step (acc : Nat × Nat × List Nat) (v : Nat) : Nat × Nat × List Nat :=
  let a := acc.1 * 64 + v
  let n := acc.2.1 + 6
  if n ≥ 8 then
    let rem := n - 8
    (a % 2 ^ rem, rem, (a / 2 ^ rem) :: acc.2.2)
  else (a, n, acc.2.2)

/-- Decode a base64url string to bytes (data before the first padding
character; characters outside the alphabet are discarded, as
`b64decode` does with `validate=False`). -/
def b64DecodeBytes (s : String) : List Nat :=
  let vals := (s.toList.takeWhile (fun c => c ≠ '=')).filterMap b64Char
  ((vals.foldl b64Step (0, 0, [])).2.2).reverse

/-- Lowercase hex digit of a value below 16. -/
def hexDigit (n : Nat) : Char :=
  if n < 10 then Char.ofNat (48 + n) else Char.ofNat (87 + n)

/-- Lowercase hex string of a byte list. -/
def hexOfBytes (bs : List Nat) : String :=
  String.mk (bs.foldr (fun b acc => hexDigit (b / 16) :: hexDigit (b % 16) :: acc) [])

/-- Model of `_normalize_tx_hash_to_hex` (`src/main.py:823`): a 64-hex
string is lowercased; otherwise the string is base64url-decoded and kept
only when it yields exactly 32 bytes; otherwise the result is empty. -/
def normalize_tx_hash_to_hex (h : String) : String :=
  if h = "" then ""
  else if isHex64 h then lowerStr h
  else
    let bs := b64DecodeBytes h
    if bs.length = 32 then hexOfBytes bs else ""

/-- The per-chat dedup bucket `SEEN[chat]`: a Python dict from dedupe key
to the mark timestamp, modelled as an insertion-ordered association list. -/
abbrev Bucket := List (String × Int)

/-- Dict lookup `bucket.get(key)`. -/
def bucketGet (b : Bucket) (k : String) : Option Int :=
  match b.find? (fun p => p.1 = k) with
  | some p => some p.2
  | none => none

/-- Dict membership. -/
def bucketHas (b : Bucket) (k : String) : Bool := (bucketGet b k).isSome

/-- Dict assignment `bucket[key] = v`: update in place when the key
exists, append otherwise (Python dicts keep insertion order). -/
def bucketSet (b : Bucket) (k : String) (v : Int) : Bucket :=
  if bucketHas b k then b.map (fun p => if p.1 = k then (k, v) else p)
  else b ++ [(k, v)]

/-- The maintenance sweep at the top of `dedupe_ok` (`src/main.py:414`):
when the bucket holds more than 4000 entries, the first 800 entries are
scanned and the expired ones (`now - ts > ttl`) are popped. -/
def dedupClean (b : Bucket) (now ttl : Int) : Bucket :=
  if b.length > 4000 then
    let expired := ((b.take 800).filter (fun p => now - p.2 > ttl)).map Prod.fst
    b.filter (fun p => ¬ expired.contains p.1)
  else b

/-- Model of `dedupe_ok` (`src/main.py:410`): returns whether the key is
fresh and the updated bucket.  A key marked with a nonzero timestamp less
than `ttl` ago is rejected; otherwise the key is (re)marked with `now`.
Note that the mark happens here, inside the check, before any
notification is attempted by the caller. -/
def dedupe_ok (b : Bucket) (key : String) (now ttl : Int) : Bool × Bucket :=
  let b := dedupClean b now ttl
  match bucketGet b key with
  | some ts => if ts ≠ 0 ∧ now - ts < ttl then (false, b)
               else (true, bucketSet b key now)
  | none => (true, bucketSet b key now)

/-- Model of `anti_spam_limit` (`src/main.py:424`), with
`BURST_WINDOW_SEC = 30` (the default of the env override): returns
(max messages per window, window seconds). -/
def anti_spam_limit (level : String) : Nat × Int :=
  let lvl := upperStr (orS level "MED")
  if lvl = "LOW" then (9999, 30)
  else if lvl = "HIGH" then (4, 30)
  else (8, 30)

/-- The threshold comparison used by the pipeline
(`if ton_spent < min_buy: continue`, `src/main.py:2062`, `:2103`, `:2190`,
and `if buy.ton_amount < token.min_ton` in `src/bot/monitor.py:132`):
true when the event is skipped. -/
def belowMin (ton thr : ℚ) : Bool := decide (ton < thr)

/-- Per-chat settings relevant to the pipeline (the `settings` dict of a
group in `GROUPS`, plus the configured pools of the token). -/
structure ChatCfg where
  ston_pool : String
  dedust_pool : String
  token_address : String
  enable_ston : Bool
  enable_dedust : Bool
  anti_spam : String
  burst_mode : Bool
  min_buy_unit : String
  min_buy_ton : ℚ
  min_buy_usd : ℚ
deriving Repr, DecidableEq

/-- Model of `min_buy_ton_threshold` (`src/main.py:593`).  `price` is the
result of the external `ton_usd_price()` lookup (`none` when the price
feed is unavailable or the cached value is missing). -/
def min_buy_ton_threshold (cfg : ChatCfg) (price : Option ℚ) : ℚ :=
  let unit := upperStr (orS cfg.min_buy_unit "TON")
  if unit ≠ "USD" then cfg.min_buy_ton
  else if cfg.min_buy_usd ≤ 0 then 0
  else
    match price with
    | none => 0
    | some p => if p ≤ 0 then 0 else cfg.min_buy_usd / p

/-- One record of the STON export events feed, holding the values
`poll_once` reads from it (`src/main.py:2028`-`2061`).  `timestamp` is
`ev.get("timestamp") or ev.get("time") or ev.get("ts") or 0`. -/
structure StonEv where
  eventType : String
  timestamp : Int
  pairId : String
  txnId : String
  maker : String
  amount0In : ℚ
  amount0Out : ℚ
  amount1In : ℚ
  amount1Out : ℚ
deriving Repr, DecidableEq

/-- One raw DeDust trade record, holding the values read by
`dedust_trade_to_buy` (`src/main.py:148`) and by the DeDust section of
`poll_once`.  `tx` is the first truthy of `tx|txHash|hash|transaction`
(warmup reads the same hash under `tx_hash|txHash|hash`), `id` the first
truthy of `id|tradeId|seqno`, `tonIn` the result of the TON-asset test on
the input asset, `outAddr` the address of the output asset, `tsRaw` the
integer value of `timestamp|time|ts` (0 when absent or unparsable). -/
structure DedustTrade where
  tx : String
  sender : String
  id : String
  lt : String
  amountIn : ℚ
  amountOut : ℚ
  tonIn : Bool
  outAddr : String
  tsRaw : Int
deriving Repr, DecidableEq

/-- The buy dict produced by `dedust_trade_to_buy`. -/
structure Buy where
  tx : String
  buyer : String
  ton : ℚ
  token_amount : ℚ
  trade_id : String
deriving Repr, DecidableEq

/-- Model of `dedust_trade_to_buy` (`src/main.py:148`): keeps only
TON -> tracked-token trades; a TON amount larger than 1e8 is taken to be
nanoTON and divided by 1e9; the asset amount is passed through
unchanged. -/
def dedust_trade_to_buy (tr : DedustTrade) (token_addr : String) : Option Buy :=
  let tx := tr.tx
  let buyer := tr.sender
  let trade_id := orS tr.id (orS tr.lt tr.tx)
  if ¬ tr.tonIn then none
  else if tr.outAddr ≠ token_addr then none
  else
    let ton_amt := if tr.amountIn > 100000000 then tr.amountIn / 1000000000 else tr.amountIn
    some { tx := orS tx trade_id, buyer := buyer, ton := ton_amt,
           token_amount := tr.amountOut, trade_id := trade_id }

/-- TON-leg rescale of the STON v2 fallback (`src/main.py:2090`):
a value larger than 1e5 is taken to be nanoTON. -/
def ston_fallback_normalize_ton (ton_spent : ℚ) : ℚ :=
  if ton_spent > 100000 then ton_spent / 1000000000 else ton_spent

/-- Asset-amount rescale of the STON v2 fallback (`src/main.py:2093`-`2101`):
when a decimals hint is available and the raw magnitude exceeds 1e8, the
amount is divided by `10 ^ decimals`; otherwise it is left unchanged. -/
def ston_fallback_normalize_token (token_amt : ℚ) (dec : Option Nat) : ℚ :=
  match dec with
  | some d => if token_amt > 100000000 then token_amt / (10 : ℚ) ^ d else token_amt
  | none => token_amt

/-- One buy extracted by `stonfi_extract_buys_from_tonapi_tx` from a
TonAPI transaction (its dict-shape heuristics are JSON plumbing; the
model carries its output fields: raw TON amount, raw token amount, tx
hash and buyer). -/
structure FallbackBuy where
  ton : ℚ
  token_amount : ℚ
  tx : String
  buyer : String
deriving Repr, DecidableEq

/-- One TonAPI transaction of the STON v2 fallback page: its `utime`, the
hash `_tx_hash` extracts from it, and the buys extracted from its
actions. -/
structure FallbackTx where
  utime : Int
  txhash : String
  buys : List FallbackBuy
deriving Repr, DecidableEq

/-- One record of a `post_buy` invocation: the source label, the dedupe
key that guarded it, the tx / buyer / amounts passed to `post_buy`, the
timestamp the pipeline checked against `ignore_before_ts` (0 when the
record had none), and the outcome of the notification attempt (which
`post_buy` swallows). -/
structure Emit where
  source : String
  key : String
  tx : String
  buyer : String
  ton : ℚ
  token_amount : ℚ
  ts : Int
  ok : Bool
deriving Repr, DecidableEq

/-- The mutable per-chat state of the pipeline: the `token` dict fields
touched by `poll_once` / `warmup_seen_for_chat`, the burst window, and the
chat's `SEEN` bucket. -/
structure PollState where
  paused : Bool
  init_done : Bool
  ston_last_block : Option Int
  last_dedust_trade : Int
  last_dedust_ts : Int
  ignore_before_ts : Int
  decimals : Option Nat
  ton_leg : Option Nat
  burst_window_start : Int
  burst_count : Nat
  seen : Bucket
deriving Repr, DecidableEq

/-- External world of one poll cycle for one chat: the wall clock, the
TON/USD price lookup, the STON head block, the STON export events per
requested block range, the cached-or-looked-up TON leg of the STON pool,
the TonAPI fallback page, the DeDust trades page, the warmup pages, and
the outcome of each notification attempt (indexed in attempt order). -/
structure CycleEnv where
  now : Int
  price : Option ℚ
  latest : Option Int
  ston_events : Int → Int → List StonEv
  ton_leg_lookup : Option Nat
  fallback_txs : List FallbackTx
  dedust_trades : List DedustTrade
  warmup_ston_hashes : List String
  warmup_dedust : List DedustTrade
  emit_ok : Nat → Bool

/-- The parameters shared by every emit site of a cycle. -/
structure EmitCtx where
  burst_mode : Bool
  max_msgs : Nat
  now : Int
  emit_ok : Nat → Bool

/-- The emit tail shared verbatim by the three notification sites of
`poll_once` (`src/main.py:2064`-`2070`, `:2107`-`2113`, `:2193`-`2209`):
dedupe check (which also marks), burst check, burst increment, and the
`post_buy` call.  Returns the updated state, emit log, attempt index, and
whether a notification was posted. -/
def tryEmit (c : EmitCtx) (st : PollState) (emits : List Emit) (idx : Nat)
    (key source tx buyer : String) (ton tokAmt : ℚ) (ts : Int) :
    PollState × List Emit × Nat × Bool :=
  let r := dedupe_ok st.seen key c.now 600
  let st := { st with seen := r.2 }
  if ¬ r.1 then (st, emits, idx, false)
  else if c.burst_mode ∧ st.burst_count ≥ c.max_msgs then (st, emits, idx, false)
  else
    ({ st with burst_count := st.burst_count + 1 },
     emits ++ [{ source := source, key := key, tx := tx, buyer := buyer,
                 ton := ton, token_amount := tokAmt, ts := ts, ok := c.emit_ok idx }],
     idx + 1, true)

/-- Cursor initialization of the STON section (`src/main.py:2013`-`2016`):
the stored cursor when present, else `max(0, latest - 5)`. -/
def stonInitCursor (cur : Option Int) (latest : Int) : Int :=
  match cur with
  | some b => b
  | none => max 0 (latest - 5)

/-- Requested block range of the STON section (`src/main.py:2017`-`2021`):
`[last + 1, latest]`, capped to a span of 60. -/
def stonRange (last_block latest : Int) : Int × Int :=
  let from_b := last_block + 1
  let to_b := latest
  let from_b := if to_b - from_b > 60 then to_b - 60 else from_b
  (from_b, to_b)

/-- Model of `ensure_ton_leg_for_pool` (`src/main.py:2590`): a cached leg
0/1 is returned as is; otherwise the external Dexscreener lookup decides
and is cached when it yields 0 or 1. -/
def ensure_ton_leg (st : PollState) (lookup : Option Nat) : Option Nat × PollState :=
  match st.ton_leg with
  | some l => if l = 0 ∨ l = 1 then (some l, st) else (none, st)
  | none =>
    match lookup with
    | some 0 => (some 0, { st with ton_leg := some 0 })
    | some 1 => (some 1, { st with ton_leg := some 1 })
    | _ => (none, st)

/-- Buy-direction test of the STON event loop (`src/main.py:2048`-`2061`):
with TON on leg 0 a buy needs `amount0In > 0` and `amount1Out > 0`, with
TON on leg 1 symmetrically; otherwise the event is skipped. -/
def legAmounts (leg : Option Nat) (ev : StonEv) : Option (ℚ × ℚ) :=
  match leg with
  | some 0 => if ev.amount0In > 0 ∧ ev.amount1Out > 0
              then some (ev.amount0In, ev.amount1Out) else none
  | some 1 => if ev.amount1In > 0 ∧ ev.amount0Out > 0
              then some (ev.amount1In, ev.amount0Out) else none
  | _ => none

/-- Main STON event loop of `poll_once` (`src/main.py:2028`-`2071`). -/
def stonEvLoop (c : EmitCtx) (pool : String) (min_buy : ℚ) (leg : Option Nat) :
    List StonEv → PollState → List Emit → Nat → Bool →
    PollState × List Emit × Nat × Bool
  | [], st, emits, idx, posted => (st, emits, idx, posted)
  | ev :: rest, st, emits, idx, posted =>
    if lowerStr ev.eventType ≠ "swap" then
      stonEvLoop c pool min_buy leg rest st emits idx posted
    else if st.ignore_before_ts ≠ 0 ∧ ev.timestamp ≠ 0 ∧
        ev.timestamp < st.ignore_before_ts then
      stonEvLoop c pool min_buy leg rest st emits idx posted
    else if ev.pairId ≠ pool then
      stonEvLoop c pool min_buy leg rest st emits idx posted
    else if ev.txnId = "" then
      stonEvLoop c pool min_buy leg rest st emits idx posted
    else
      match legAmounts leg ev with
      | none => stonEvLoop c pool min_buy leg rest st emits idx posted
      | some amts =>
        if belowMin amts.1 min_buy then
          stonEvLoop c pool min_buy leg rest st emits idx posted
        else
          let r := tryEmit c st emits idx ("ston:" ++ pool ++ ":" ++ ev.txnId)
            "STON.fi" ev.txnId ev.maker amts.1 amts.2 ev.timestamp
          stonEvLoop c pool min_buy leg rest r.1 r.2.1 r.2.2.1 (posted ∨ r.2.2.2)

/-- Inner loop over the buys of one fallback transaction
(`src/main.py:2087`-`2113`): rescale, threshold, emit tail. -/
def stonFallbackBuys (c : EmitCtx) (pool : String) (min_buy : ℚ)
    (decimals : Option Nat) (txhash : String) (ut : Int) :
    List FallbackBuy → PollState → List Emit → Nat →
    PollState × List Emit × Nat
  | [], st, emits, idx => (st, emits, idx)
  | b :: rest, st, emits, idx =>
    let ton_spent := ston_fallback_normalize_ton b.ton
    let token_amt := ston_fallback_normalize_token b.token_amount decimals
    if belowMin ton_spent min_buy then
      stonFallbackBuys c pool min_buy decimals txhash ut rest st emits idx
    else
      let txh := orS b.tx txhash
      let r := tryEmit c st emits idx ("ston:" ++ pool ++ ":" ++ txh)
        "STON.fi v2" txh b.buyer ton_spent token_amt ut
      stonFallbackBuys c pool min_buy decimals txhash ut rest r.1 r.2.1 r.2.2.1

/-- STON v2 fallback loop (`src/main.py:2076`-`2113`): the TonAPI page is
processed oldest first; transactions older than `ignore_before_ts` are
skipped whole. -/
def stonFallbackLoop (c : EmitCtx) (pool : String) (min_buy : ℚ)
    (decimals : Option Nat) :
    List FallbackTx → PollState → List Emit → Nat →
    PollState × List Emit × Nat
  | [], st, emits, idx => (st, emits, idx)
  | txo :: rest, st, emits, idx =>
    if st.ignore_before_ts ≠ 0 ∧ txo.utime ≠ 0 ∧
        txo.utime < st.ignore_before_ts then
      stonFallbackLoop c pool min_buy decimals rest st emits idx
    else
      let r := stonFallbackBuys c pool min_buy decimals txo.txhash txo.utime
        txo.buys st emits idx
      stonFallbackLoop c pool min_buy decimals rest r.1 r.2.1 r.2.2

/-- STON section of one poll cycle (`src/main.py:2006`-`2119`).  When the
head-block fetch fails the whole section is skipped (the `except` path);
otherwise the cursor is set to the head before the events are processed,
and the v2 fallback runs only when the main loop posted nothing. -/
def stonStep (c : EmitCtx) (cfg : ChatCfg) (env : CycleEnv) (min_buy : ℚ)
    (st : PollState) (emits : List Emit) (idx : Nat) :
    PollState × List Emit × Nat :=
  match env.latest with
  | none => (st, emits, idx)
  | some latest =>
    let last_block := stonInitCursor st.ston_last_block latest
    let rg := stonRange last_block latest
    let evs := env.ston_events rg.1 rg.2
    let st := { st with ston_last_block := some rg.2 }
    let lr := ensure_ton_leg st env.ton_leg_lookup
    let r := stonEvLoop c cfg.ston_pool min_buy lr.1 evs lr.2 emits idx false
    if r.2.2.2 then (r.1, r.2.1, r.2.2.1)
    else
      let fb := stonFallbackLoop c cfg.ston_pool min_buy r.1.decimals
        env.fallback_txs.reverse r.1 r.2.1 r.2.2.1
      (fb.1, fb.2.1, fb.2.2)

/-- One sortable DeDust item `(lt_i, ts_i, b)` of `items2`
(`src/main.py:2129`-`2148`). -/
structure DItem where
  lt : Int
  ts : Int
  b : Buy
deriving Repr, DecidableEq

/-- Build one `items2` entry from a raw trade (`src/main.py:2130`-`2148`):
normalizer, timestamp normalization, and the `lt` / trade-id / id ordering
key chain parsed as an integer (0 when empty or unparsable). -/
def dedustItem (addr : String) (tr : DedustTrade) : Option DItem :=
  match dedust_trade_to_buy tr addr with
  | none => none
  | some b =>
    some { lt := pyToInt (orS tr.lt (orS b.trade_id tr.id)),
           ts := normTs tr.tsRaw, b := b }

/-- Strict lexicographic order on the `(lt, ts)` sort key of `items2`. -/
def dItemLt (x y : DItem) : Bool :=
  decide (x.lt < y.lt ∨ (x.lt = y.lt ∧ x.ts < y.ts))

/-- Stable insertion of an item before the first strictly greater one. -/
def insertIn : List DItem → DItem → List DItem
  | [], x => [x]
  | y :: ys, x => if dItemLt x y then x :: y :: ys else y :: insertIn ys x

/-- Model of `items2.sort(key=lambda x: (x[0] or 0, x[1] or 0))`
(`src/main.py:2151`): a stable ascending sort by `(lt, ts)` (Python's
`list.sort` is stable; a stable insertion sort computes the same list). -/
def sortByKey (l : List DItem) : List DItem := l.foldl insertIn []

/-- The `is_new` chain of the DeDust loop (`src/main.py:2175`-`2184`). -/
def dedustIsNew (lt ts last_lt last_ts : Int) : Bool :=
  if lt ≠ 0 ∧ last_lt ≠ 0 then decide (lt > last_lt)
  else if lt ≠ 0 ∧ last_lt = 0 then true
  else if ts ≠ 0 ∧ last_ts ≠ 0 then decide (ts > last_ts)
  else if ts ≠ 0 ∧ last_ts = 0 then true
  else false

/-- DeDust item loop (`src/main.py:2170`-`2214`), carrying the running
`max_seen_lt` / `max_seen_ts`, which are advanced only after a posted
notification. -/
def dedustLoop (c : EmitCtx) (pool : String) (min_buy : ℚ)
    (last_lt last_ts ignore_before : Int) :
    List DItem → PollState → List Emit → Nat → Int → Int →
    PollState × List Emit × Nat × Int × Int
  | [], st, emits, idx, maxLt, maxTs => (st, emits, idx, maxLt, maxTs)
  | it :: rest, st, emits, idx, maxLt, maxTs =>
    if ignore_before ≠ 0 ∧ it.ts ≠ 0 ∧ it.ts < ignore_before then
      dedustLoop c pool min_buy last_lt last_ts ignore_before rest st emits idx maxLt maxTs
    else if ¬ dedustIsNew it.lt it.ts last_lt last_ts then
      dedustLoop c pool min_buy last_lt last_ts ignore_before rest st emits idx maxLt maxTs
    else if belowMin it.b.ton min_buy then
      dedustLoop c pool min_buy last_lt last_ts ignore_before rest st emits idx maxLt maxTs
    else
      let txh := normalize_tx_hash_to_hex it.b.tx
      let key := if txh ≠ "" then "tx:" ++ txh else "dedust:" ++ pool ++ ":" ++ it.b.tx
      let r := tryEmit c st emits idx key "DeDust" it.b.tx it.b.buyer
        it.b.ton it.b.token_amount it.ts
      let maxLt' := if r.2.2.2 ∧ it.lt ≠ 0 ∧ it.lt > maxLt then it.lt else maxLt
      let maxTs' := if r.2.2.2 ∧ it.ts ≠ 0 ∧ it.ts > maxTs then it.ts else maxTs
      dedustLoop c pool min_buy last_lt last_ts ignore_before rest r.1 r.2.1 r.2.2.1 maxLt' maxTs'

/-- DeDust section of one poll cycle (`src/main.py:2122`-`2224`): build
and sort the items, run the loop from the stored baselines, then commit
the nonzero watermarks. -/
def dedustStep (c : EmitCtx) (pool addr : String) (min_buy : ℚ)
    (trades : List DedustTrade) (st : PollState) (emits : List Emit)
    (idx : Nat) : PollState × List Emit × Nat :=
  let items := sortByKey (trades.filterMap (dedustItem addr))
  let last_lt := st.last_dedust_trade
  let last_ts := st.last_dedust_ts
  let r := dedustLoop c pool min_buy last_lt last_ts st.ignore_before_ts
    items st emits idx last_lt last_ts
  let st1 := r.1
  let maxLt := r.2.2.2.1
  let maxTs := r.2.2.2.2
  let st2 := if maxLt ≠ 0 then { st1 with last_dedust_trade := maxLt } else st1
  let st3 := if maxTs ≠ 0 then { st2 with last_dedust_ts := maxTs } else st2
  (st3, r.2.1, r.2.2.1)

/-- Maximum parseable `lt`/trade id of the warmup DeDust page
(`src/main.py:352`-`363`): entries whose `lt or trade_id or id` string is
empty or unparsable are skipped. -/
def warmupMaxLt (trades : List DedustTrade) : Option Int :=
  trades.foldl
    (fun acc t =>
      match pyToInt? (orS t.lt t.id) with
      | some v =>
        match acc with
        | none => some v
        | some m => if v > m then some v else some m
      | none => acc)
    none

/-- Maximum positive normalized timestamp of the warmup DeDust page
(`src/main.py:365`-`374`). -/
def warmupMaxTs (trades : List DedustTrade) : Option Int :=
  trades.foldl
    (fun acc t =>
      let ts := normTs t.tsRaw
      if ts > 0 then
        match acc with
        | none => some ts
        | some m => if ts > m then some ts else some m
      else acc)
    none

/-- Model of `warmup_seen_for_chat` (`src/main.py:328`-`408`): mark the
current STON and DeDust pages as seen, baseline the DeDust watermarks to
the page maxima, record the warmup instant as `ignore_before_ts`, and set
the STON block cursor to the current head when its fetch succeeds.
`newest_dedust_ts` is assigned only inside `if dedust_pool:`
(`src/main.py:382`), so for a chat with no DeDust pool the read at
`src/main.py:392` raises `UnboundLocalError`, which the outer `except`
at `:407` swallows: only the in-place `SEEN` marks survive, and neither
`ignore_before_ts` nor any cursor baseline is written.
(`tok["last_ston_tx"]`, written before that crash point, is never read
by the pipeline, so the model omits it.) -/
def warmupApply (cfg : ChatCfg) (env : CycleEnv) (st : PollState) : PollState :=
  let seen1 :=
    if cfg.ston_pool ≠ "" then
      env.warmup_ston_hashes.foldl
        (fun b h =>
          if h ≠ "" then bucketSet b ("ston:" ++ cfg.ston_pool ++ ":" ++ h) env.now
          else b)
        st.seen
    else st.seen
  if cfg.dedust_pool = "" then { st with seen := seen1 }
  else
    let seen2 :=
      env.warmup_dedust.foldl
        (fun b t =>
          if t.tx ≠ "" then bucketSet b ("dedust:" ++ cfg.dedust_pool ++ ":" ++ t.tx) env.now
          else b)
        seen1
    let st := { st with seen := seen2 }
    let st :=
      match warmupMaxLt env.warmup_dedust with
      | some m => { st with last_dedust_trade := m }
      | none => st
    let st :=
      match warmupMaxTs env.warmup_dedust with
      | some m => { st with last_dedust_ts := m }
      | none => st
    let st := { st with ignore_before_ts := env.now }
    match env.latest with
    | some h => { st with ston_last_block := some h }
    | none => st

/-- Burst-window reset at the top of a cycle (`src/main.py:1999`-`2003`). -/
def burstReset (st : PollState) (now window : Int) : PollState :=
  if now - st.burst_window_start > window then
    { st with burst_window_start := now, burst_count := 0 }
  else st

/-- One poll cycle of `poll_once` for one configured chat
(`src/main.py:1975`-`2224`): pause gate, one-time warmup (which skips
posting on that cycle), threshold and burst-limit computation, then the
STON and DeDust sections.  Returns the new state and the log of
notification attempts. -/
def chatPollOnce (cfg : ChatCfg) (env : CycleEnv) (st : PollState) :
    PollState × List Emit :=
  if st.paused then (st, [])
  else if ¬ st.init_done then ({ warmupApply cfg env st with init_done := true }, [])
  else
    let min_buy := min_buy_ton_threshold cfg env.price
    let lim := anti_spam_limit cfg.anti_spam
    let st := burstReset st env.now lim.2
    let c : EmitCtx := { burst_mode := cfg.burst_mode, max_msgs := lim.1,
                         now := env.now, emit_ok := env.emit_ok }
    let r1 :=
      if cfg.enable_ston ∧ cfg.ston_pool ≠ "" then
        stonStep c cfg env min_buy st [] 0
      else (st, [], 0)
    let r2 :=
      if cfg.enable_dedust ∧ cfg.dedust_pool ≠ "" then
        dedustStep c cfg.dedust_pool cfg.token_address min_buy env.dedust_trades
          r1.1 r1.2.1 r1.2.2
      else r1
    (r2.1, r2.2.1)

/-- One trade record of the GeckoTerminal pool-trades page as read by
`fetch_new_trades` (`src/bot/monitor.py:66`): only its `id` matters for
the incremental cut (`""` models a missing/falsy id). -/
structure GeckoTrade where
  id : String
deriving Repr, DecidableEq

/-- Python truthiness of the stored `last_trade_id`. -/
def truthyOpt (o : Option String) : Bool :=
  match o with
  | none => false
  | some s => s ≠ ""

/-- The newest-first scan of `fetch_new_trades`: skip records with no id,
stop at the first record whose id equals the stored watermark. -/
def fetchNewAux (last : Option String) : List GeckoTrade → List GeckoTrade
  | [] => []
  | t :: rest =>
    if t.id = "" then fetchNewAux last rest
    else if truthyOpt last ∧ some t.id = last then []
    else t :: fetchNewAux last rest

/-- Model of `fetch_new_trades` (`src/bot/monitor.py:66`-`77`): the new
records of a newest-first page, returned oldest first. -/
def fetch_new_trades (data : List GeckoTrade) (last : Option String) :
    List GeckoTrade :=
  (fetchNewAux last data).reverse

/-- The behaviour C10 ascribes to `fetch_new_trades`, written from the
claim's words: among the records that have an id, exactly those preceding
the first occurrence of `last_trade_id` (all of them when the watermark
is absent or does not occur in the page), reversed into oldest-first
order. -/
def fetch_new_trades_claimed (data : List GeckoTrade) (last : Option String) :
    List GeckoTrade :=
  let withId := data.filter (fun t => t.id ≠ "")
  (match last with
   | none => withId
   | some l => withId.takeWhile (fun t => t.id ≠ l)).reverse

/-- Well-formed dedup bucket: dict keys are unique. -/
def wfBucket (b : Bucket) : Prop := (b.map Prod.fst).Nodup

/-- The dedupe keys of an emit log are pairwise distinct. -/
def keysDistinct (es : List Emit) : Bool :=
  decide ((es.map Emit.key).Nodup)

/-- No emit of the log re-uses a key that the given (cycle-initial)
bucket marks with a nonzero timestamp less than the 600-second dedup TTL
old. -/
def noRecentReEmit (seen0 : Bucket) (now : Int) (es : List Emit) : Bool :=
  es.all
    (fun e =>
      match bucketGet seen0 e.key with
      | some t => decide (t = 0) || decide (now - t ≥ 600)
      | none => true)

/-- Every emit of the log respects the warmup instant: its checked
timestamp is either unknown (0) or not before `ignore_before_ts`. -/
def respectsIgnoreBefore (ib : Int) (es : List Emit) : Bool :=
  es.all (fun e => decide (ib = 0) || decide (e.ts = 0) || decide (ib ≤ e.ts))

/-!
Invariant predicates and concrete test scenarios used by the claim
theorems below.  Each `cNxxx` family is one concrete chat configuration,
pipeline state and cycle environment; `cNrun` is the resulting poll cycle.
-/

def goodBucket (seen0 : Bucket) (now : Int) (seen : Bucket) (es : List Emit) : Prop :=
  wfBucket seen ∧
  (∀ e ∈ es, bucketGet seen e.key = some now) ∧
  (es.map Emit.key).Nodup ∧
  (∀ k t, bucketGet seen0 k = some t → t ≠ 0 → now - t < 600 →
    bucketGet seen k = some t ∧ ∀ e ∈ es, e.key ≠ k)

def ibOk (ib : Int) (e : Emit) : Bool :=
  decide (ib = 0) || decide (e.ts = 0) || decide (ib ≤ e.ts)

def c6cfg (T : ℚ) : ChatCfg :=
  { ston_pool := "", dedust_pool := "Q", token_address := "A",
    enable_ston := true, enable_dedust := true, anti_spam := "MED",
    burst_mode := true, min_buy_unit := "TON", min_buy_ton := T, min_buy_usd := 0 }

def c6tr (a : ℚ) : DedustTrade :=
  { tx := "zz", sender := "B", id := "", lt := "7", amountIn := a,
    amountOut := 3, tonIn := true, outAddr := "A", tsRaw := 0 }

def c6st : PollState :=
  { paused := false, init_done := true, ston_last_block := none,
    last_dedust_trade := 0, last_dedust_ts := 0, ignore_before_ts := 0,
    decimals := none, ton_leg := none, burst_window_start := 100,
    burst_count := 0, seen := [] }

def c6env (a : ℚ) : CycleEnv :=
  { now := 100, price := none, latest := none, ston_events := fun _ _ => [],
    ton_leg_lookup := none, fallback_txs := [], dedust_trades := [c6tr a],
    warmup_ston_hashes := [], warmup_dedust := [], emit_ok := fun _ => true }

def c1cfg : ChatCfg :=
  { ston_pool := "P", dedust_pool := "", token_address := "A",
    enable_ston := true, enable_dedust := true, anti_spam := "MED",
    burst_mode := true, min_buy_unit := "TON", min_buy_ton := 0, min_buy_usd := 0 }

def c1ev : StonEv :=
  { eventType := "swap", timestamp := 60, pairId := "P", txnId := "T1",
    maker := "M", amount0In := 5, amount0Out := 0, amount1In := 0,
    amount1Out := 10 }

def c1st : PollState :=
  { paused := false, init_done := true, ston_last_block := some 99,
    last_dedust_trade := 0, last_dedust_ts := 0, ignore_before_ts := 50,
    decimals := none, ton_leg := some 0, burst_window_start := 100,
    burst_count := 0, seen := [] }

def c1env : CycleEnv :=
  { now := 100, price := none, latest := some 100,
    ston_events := fun _ _ => [c1ev], ton_leg_lookup := none,
    fallback_txs := [], dedust_trades := [], warmup_ston_hashes := [],
    warmup_dedust := [], emit_ok := fun _ => false }

def c1env2 : CycleEnv :=
  { c1env with now := 106, emit_ok := fun _ => true }

def c1run1 : PollState × List Emit := chatPollOnce c1cfg c1env c1st

def c1run2 : PollState × List Emit := chatPollOnce c1cfg c1env2 c1run1.1

def hex64a : String :=
  "aaaaaaaaaaaaaaaaaaaaaaaaaaaaaaaaaaaaaaaaaaaaaaaaaaaaaaaaaaaaaaaa"

def c2cfg : ChatCfg :=
  { ston_pool := "P", dedust_pool := "Q", token_address := "A",
    enable_ston := true, enable_dedust := true, anti_spam := "MED",
    burst_mode := true, min_buy_unit := "TON", min_buy_ton := 0, min_buy_usd := 0 }

def c2ev : StonEv :=
  { eventType := "swap", timestamp := 60, pairId := "P", txnId := hex64a,
    maker := "M", amount0In := 5, amount0Out := 0, amount1In := 0,
    amount1Out := 7 }

def c2tr : DedustTrade :=
  { tx := hex64a, sender := "B", id := "", lt := "9", amountIn := 3,
    amountOut := 4, tonIn := true, outAddr := "A", tsRaw := 60 }

def c2st : PollState := c1st

def c2env : CycleEnv :=
  { now := 100, price := none, latest := some 100,
    ston_events := fun _ _ => [c2ev], ton_leg_lookup := none,
    fallback_txs := [], dedust_trades := [c2tr], warmup_ston_hashes := [],
    warmup_dedust := [], emit_ok := fun _ => true }

def c2run : PollState × List Emit := chatPollOnce c2cfg c2env c2st

def c3cfg : ChatCfg :=
  { ston_pool := "P", dedust_pool := "", token_address := "A",
    enable_ston := true, enable_dedust := true, anti_spam := "MED",
    burst_mode := true, min_buy_unit := "TON", min_buy_ton := 0, min_buy_usd := 0 }

def c3st : PollState :=
  { c1st with ston_last_block := some 100 }

def c3env : CycleEnv :=
  { c1env with latest := some 99, ston_events := fun _ _ => [] }

def c3run : PollState × List Emit := chatPollOnce c3cfg c3env c3st

def c4cfg : ChatCfg :=
  { ston_pool := "", dedust_pool := "Q", token_address := "A",
    enable_ston := true, enable_dedust := true, anti_spam := "HIGH",
    burst_mode := true, min_buy_unit := "TON", min_buy_ton := 5, min_buy_usd := 0 }

def c4tr (i : Nat) (amt : ℚ) : DedustTrade :=
  { tx := "a" ++ toString i, sender := "B", id := "", lt := toString i,
    amountIn := amt, amountOut := 2, tonIn := true, outAddr := "A", tsRaw := 60 }

def c4st : PollState :=
  { paused := false, init_done := true, ston_last_block := none,
    last_dedust_trade := 0, last_dedust_ts := 0, ignore_before_ts := 50,
    decimals := none, ton_leg := none, burst_window_start := 100,
    burst_count := 0, seen := [] }

def c4env : CycleEnv :=
  { now := 100, price := none, latest := none, ston_events := fun _ _ => [],
    ton_leg_lookup := none, fallback_txs := [],
    dedust_trades := [c4tr 1 10, c4tr 2 10, c4tr 3 10, c4tr 4 10, c4tr 5 10,
      c4tr 6 10, c4tr 7 10, c4tr 8 10, c4tr 9 10, c4tr 10 1],
    warmup_ston_hashes := [], warmup_dedust := [], emit_ok := fun _ => true }

def c4run : PollState × List Emit := chatPollOnce c4cfg c4env c4st

def c7cfg : ChatCfg :=
  { ston_pool := "", dedust_pool := "Q", token_address := "A",
    enable_ston := true, enable_dedust := true, anti_spam := "MED",
    burst_mode := true, min_buy_unit := "USD", min_buy_ton := 0,
    min_buy_usd := 1000000 }

def c7env : CycleEnv :=
  { now := 100, price := none, latest := none, ston_events := fun _ _ => [],
    ton_leg_lookup := none, fallback_txs := [], dedust_trades := [c6tr 1],
    warmup_ston_hashes := [], warmup_dedust := [], emit_ok := fun _ => true }

def c7run : PollState × List Emit := chatPollOnce c7cfg c7env c6st

def c8ev : StonEv :=
  { eventType := "swap", timestamp := 0, pairId := "P", txnId := "T8",
    maker := "M", amount0In := 5, amount0Out := 0, amount1In := 0,
    amount1Out := 10 }

def c8env : CycleEnv :=
  { c1env with ston_events := fun _ _ => [c8ev] }

def c8run : PollState × List Emit := chatPollOnce c1cfg c8env c1st

/-!
Helper lemmas about the dedup bucket, `dedupe_ok`, the shared emit tail
and the poll loops.
-/

theorem bucketGet_cons (p : String × Int) (b : Bucket) (k : String) :
    bucketGet (p :: b) k = if p.1 = k then some p.2 else bucketGet b k := by
  by_cases h : p.1 = k <;> simp [bucketGet, List.find?, h]

theorem wfBucket_cons (p : String × Int) (b : Bucket) :
    wfBucket (p :: b) ↔ (∀ q ∈ b, q.1 ≠ p.1) ∧ wfBucket b := by
  unfold wfBucket
  rw [List.map_cons, List.nodup_cons]
  constructor
  · rintro ⟨h1, h2⟩
    refine ⟨fun q hq e => h1 ?_, h2⟩
    rw [← e]
    exact List.mem_map_of_mem Prod.fst hq
  · rintro ⟨h1, h2⟩
    refine ⟨fun hmem => ?_, h2⟩
    rcases List.mem_map.mp hmem with ⟨q, hq, e⟩
    exact h1 q hq e

theorem bucketGet_mapset_other (b : Bucket) (k k' : String) (v : Int) (h : k' ≠ k) :
    bucketGet (b.map (fun p => if p.1 = k then (k, v) else p)) k' = bucketGet b k' := by
  induction b with
  | nil => rfl
  | cons p rest ih =>
    by_cases hp : p.1 = k
    · have hne : k ≠ k' := Ne.symm h
      simp [List.map_cons, hp, bucketGet_cons, hne, ih]
    · by_cases hp' : p.1 = k'
      · simp [List.map_cons, hp, bucketGet_cons, hp', h]
      · simp [List.map_cons, hp, bucketGet_cons, hp', ih]

theorem bucketGet_mapset_self (b : Bucket) (k : String) (v : Int)
    (h : bucketHas b k = true) :
    bucketGet (b.map (fun p => if p.1 = k then (k, v) else p)) k = some v := by
  induction b with
  | nil => simp [bucketHas, bucketGet] at h
  | cons p rest ih =>
    by_cases hp : p.1 = k
    · simp [List.map_cons, hp, bucketGet_cons]
    · have hrest : bucketHas rest k = true := by
        simpa [bucketHas, bucketGet_cons, hp] using h
      simp [List.map_cons, hp, bucketGet_cons, ih hrest]

theorem bucketGet_append_one (b : Bucket) (k k' : String) (v : Int) :
    bucketGet (b ++ [(k, v)]) k' =
      match bucketGet b k' with
      | some t => some t
      | none => if k = k' then some v else none := by
  induction b with
  | nil => by_cases hk : k = k' <;> simp [bucketGet_cons, bucketGet, hk]
  | cons p rest ih =>
    by_cases hp : p.1 = k'
    · simp [List.cons_append, bucketGet_cons, hp]
    · simp [List.cons_append, bucketGet_cons, hp, ih]

theorem bucketGet_set (b : Bucket) (k k' : String) (v : Int) :
    bucketGet (bucketSet b k v) k' = if k' = k then some v else bucketGet b k' := by
  unfold bucketSet
  by_cases hhas : bucketHas b k
  · by_cases hk : k' = k
    · subst hk
      simp [hhas, bucketGet_mapset_self b k' v hhas]
    · simp [hhas, bucketGet_mapset_other b k k' v hk, hk]
  · by_cases hk : k' = k
    · subst hk
      have hnone : bucketGet b k' = none := by
        cases hv : bucketGet b k' with
        | none => rfl
        | some t => simp [bucketHas, hv] at hhas
      simp [hhas, bucketGet_append_one, hnone]
    · have hne : ¬ (k = k') := fun e => hk e.symm
      rw [if_neg hhas, if_neg hk, bucketGet_append_one]
      cases hv : bucketGet b k' <;> simp [hne]

theorem bucketGet_eq_none_iff (b : Bucket) (k : String) :
    bucketGet b k = none ↔ ∀ p ∈ b, p.1 ≠ k := by
  induction b with
  | nil => simp [bucketGet]
  | cons p rest ih =>
    by_cases hp : p.1 = k <;> simp [bucketGet_cons, hp, ih]

theorem wfBucket_set (b : Bucket) (k : String) (v : Int) (h : wfBucket b) :
    wfBucket (bucketSet b k v) := by
  unfold bucketSet
  by_cases hhas : bucketHas b k
  · rw [if_pos hhas]
    have hkeys : (b.map (fun p => if p.1 = k then (k, v) else p)).map Prod.fst
        = b.map Prod.fst := by
      rw [List.map_map]
      apply List.map_congr_left
      intro p _
      by_cases hp : p.1 = k <;> simp [hp]
    unfold wfBucket
    rw [hkeys]
    exact h
  · rw [if_neg hhas]
    have hnotin : ∀ p ∈ b, p.1 ≠ k := by
      refine (bucketGet_eq_none_iff b k).mp ?_
      cases hv : bucketGet b k with
      | none => rfl
      | some t => simp [bucketHas, hv] at hhas
    unfold wfBucket
    rw [List.map_append]
    rw [List.nodup_append]
    refine ⟨h, by simp, ?_⟩
    intro a ha
    rcases List.mem_map.mp ha with ⟨p, hp, e⟩
    simp only [List.map_cons, List.map_nil, List.mem_singleton]
    intro e2
    exact hnotin p hp (by rw [e2] at e; exact e)

theorem wfBucket_filter (b : Bucket) (P : String × Int → Bool) (h : wfBucket b) :
    wfBucket (b.filter P) := by
  unfold wfBucket at h ⊢
  exact ((List.filter_sublist b).map Prod.fst).nodup h

theorem wfBucket_clean (b : Bucket) (now ttl : Int) (h : wfBucket b) :
    wfBucket (dedupClean b now ttl) := by
  unfold dedupClean
  split
  · exact wfBucket_filter _ _ h
  · exact h

theorem bucketGet_unique (b : Bucket) (k : String) (t : Int)
    (hwf : wfBucket b) (hget : bucketGet b k = some t) :
    ∀ p ∈ b, p.1 = k → p.2 = t := by
  induction b with
  | nil => simp
  | cons q rest ih =>
    rcases (wfBucket_cons q rest).mp hwf with ⟨hne, hwfr⟩
    by_cases hq : q.1 = k
    · have hqt : q.2 = t := by
        have := hget
        rw [bucketGet_cons, if_pos hq] at this
        exact Option.some.inj this
      intro p hp hpk
      rcases List.mem_cons.mp hp with e | hmem
      · rw [e]; exact hqt
      · exact absurd (hpk.trans hq.symm) (hne p hmem)
    · have hgr : bucketGet rest k = some t := by
        have := hget
        rwa [bucketGet_cons, if_neg hq] at this
      intro p hp hpk
      rcases List.mem_cons.mp hp with e | hmem
      · exact absurd (e ▸ hpk : q.1 = k) hq
      · exact ih hwfr hgr p hmem hpk

theorem bucketGet_filter_of_kept (b : Bucket) (P : String × Int → Bool)
    (k : String) (t : Int) (hget : bucketGet b k = some t)
    (hP : P (k, t) = true) :
    bucketGet (b.filter P) k = some t := by
  induction b with
  | nil => simp [bucketGet] at hget
  | cons p rest ih =>
    by_cases hp : p.1 = k
    · have hpt : p.2 = t := by
        have := hget
        rw [bucketGet_cons, if_pos hp] at this
        exact Option.some.inj this
      have hpe : p = (k, t) := Prod.ext hp hpt
      rw [hpe, List.filter_cons, if_pos hP, bucketGet_cons]
      simp
    · have hgr : bucketGet rest k = some t := by
        have := hget
        rwa [bucketGet_cons, if_neg hp] at this
      rw [List.filter_cons]
      by_cases hPp : P p = true
      · rw [if_pos hPp, bucketGet_cons, if_neg hp]
        exact ih hgr
      · rw [if_neg hPp]
        exact ih hgr

theorem bucketGet_clean (b : Bucket) (k : String) (t now ttl : Int)
    (hwf : wfBucket b) (hget : bucketGet b k = some t) (hts : now - t ≤ ttl) :
    bucketGet (dedupClean b now ttl) k = some t := by
  unfold dedupClean
  split
  · apply bucketGet_filter_of_kept b _ k t hget
    simp only [decide_eq_true_eq]
    intro hmem
    have hmem2 : k ∈ (List.map Prod.fst
        (List.filter (fun p => decide (now - p.2 > ttl)) (List.take 800 b))) := by
      simpa using hmem
    rcases List.mem_map.mp hmem2 with ⟨p, hp, e⟩
    have hpb : p ∈ b := List.Sublist.mem (List.mem_of_mem_filter hp) (List.take_sublist 800 b)
    have hpt : p.2 = t := bucketGet_unique b k t hwf hget p hpb e
    have hcond := List.of_mem_filter hp
    simp only [decide_eq_true_eq] at hcond
    rw [hpt] at hcond
    exact absurd hcond (not_lt.mpr hts)
  · exact hget

theorem wfBucket_dedupe (b : Bucket) (k : String) (now ttl : Int)
    (hwf : wfBucket b) : wfBucket (dedupe_ok b k now ttl).2 := by
  unfold dedupe_ok
  have hc := wfBucket_clean b now ttl hwf
  cases hg : bucketGet (dedupClean b now ttl) k with
  | none => simpa [hg] using wfBucket_set _ k now hc
  | some ts =>
    by_cases hcond : ts ≠ 0 ∧ now - ts < ttl
    · simpa [hg, hcond] using hc
    · simpa [hg, hcond] using wfBucket_set _ k now hc

theorem dedupe_ok_marks (b : Bucket) (k : String) (now ttl : Int)
    (h : (dedupe_ok b k now ttl).1 = true) :
    bucketGet (dedupe_ok b k now ttl).2 k = some now := by
  unfold dedupe_ok at h ⊢
  cases hg : bucketGet (dedupClean b now ttl) k with
  | none => simp [hg, bucketGet_set]
  | some ts =>
    by_cases hcond : ts ≠ 0 ∧ now - ts < ttl
    · simp [hg, hcond] at h
    · simp [hg, hcond, bucketGet_set]

theorem dedupe_ok_recent (b : Bucket) (k : String) (t now ttl : Int)
    (hwf : wfBucket b) (hget : bucketGet b k = some t)
    (ht : t ≠ 0) (hlt : now - t < ttl) :
    dedupe_ok b k now ttl = (false, dedupClean b now ttl) := by
  have hg := bucketGet_clean b k t now ttl hwf hget (le_of_lt hlt)
  unfold dedupe_ok
  simp [hg, ht, hlt]

theorem dedupe_ok_get_other (b : Bucket) (k k' : String) (t now ttl : Int)
    (hwf : wfBucket b) (hk : k' ≠ k) (hget : bucketGet b k' = some t)
    (hts : now - t ≤ ttl) :
    bucketGet (dedupe_ok b k now ttl).2 k' = some t := by
  have hg := bucketGet_clean b k' t now ttl hwf hget hts
  unfold dedupe_ok
  cases hgk : bucketGet (dedupClean b now ttl) k with
  | none => simp [hgk, bucketGet_set, hk, hg]
  | some ts =>
    by_cases hcond : ts ≠ 0 ∧ now - ts < ttl
    · simpa [hgk, hcond] using hg
    · simp [hgk, hcond, bucketGet_set, hk, hg]

theorem dedupe_ok_get_self_false (b : Bucket) (k : String) (t now ttl : Int)
    (hwf : wfBucket b) (hget : bucketGet b k = some t) (hts : now - t ≤ ttl)
    (hfalse : (dedupe_ok b k now ttl).1 = false) :
    bucketGet (dedupe_ok b k now ttl).2 k = some t := by
  have hg := bucketGet_clean b k t now ttl hwf hget hts
  unfold dedupe_ok at hfalse ⊢
  by_cases hcond : t ≠ 0 ∧ now - t < ttl
  · simp [hg, hcond]
  · simp [hg, hcond] at hfalse

theorem tryEmit_good (c : EmitCtx) (st : PollState) (emits : List Emit) (idx : Nat)
    (key source tx buyer : String) (ton tokAmt : ℚ) (ts : Int)
    (seen0 : Bucket) (hnow : 0 < c.now)
    (h : goodBucket seen0 c.now st.seen emits) :
    goodBucket seen0 c.now
      (tryEmit c st emits idx key source tx buyer ton tokAmt ts).1.seen
      (tryEmit c st emits idx key source tx buyer ton tokAmt ts).2.1 := by
  obtain ⟨hwf, hmarks, hnodup, hrec⟩ := h
  have hwfd := wfBucket_dedupe st.seen key c.now 600 hwf
  have hnowne : c.now ≠ 0 := ne_of_gt hnow
  -- the key of a previous emit cannot be re-checked successfully
  have hkey_old : ∀ e ∈ emits, e.key = key →
      (dedupe_ok st.seen key c.now 600).1 = false := by
    intro e he hek
    have hm := hmarks e he
    rw [hek] at hm
    have := dedupe_ok_recent st.seen key c.now c.now 600 hwf hm hnowne (by norm_num)
    rw [this]
  -- a recent key from the cycle-initial bucket cannot be re-checked successfully
  have hkey_rec : ∀ k t, bucketGet seen0 k = some t → t ≠ 0 → c.now - t < 600 →
      k = key → (dedupe_ok st.seen key c.now 600).1 = false := by
    intro k t h0 ht hlt hk
    obtain ⟨hg, _⟩ := hrec k t h0 ht hlt
    rw [hk] at hg
    have := dedupe_ok_recent st.seen key t c.now 600 hwf hg ht hlt
    rw [this]
  -- fresh entries survive the dedupe call
  have hsurv : ∀ k' t, bucketGet st.seen k' = some t → c.now - t ≤ 600 →
      (k' ≠ key ∨ (dedupe_ok st.seen key c.now 600).1 = false) →
      bucketGet (dedupe_ok st.seen key c.now 600).2 k' = some t := by
    intro k' t hg hts hcase
    rcases hcase with hne | hfalse
    · exact dedupe_ok_get_other st.seen key k' t c.now 600 hwf hne hg hts
    · rcases eq_or_ne k' key with e | hne
      · subst e
        exact dedupe_ok_get_self_false st.seen k' t c.now 600 hwf hg hts hfalse
      · exact dedupe_ok_get_other st.seen key k' t c.now 600 hwf hne hg hts
  unfold tryEmit
  cases hdo : (dedupe_ok st.seen key c.now 600).1 with
  | false =>
    simp only [hdo, Bool.false_eq_true, not_false_eq_true, if_true]
    refine ⟨hwfd, ?_, hnodup, ?_⟩
    · intro e he
      exact hsurv e.key c.now (hmarks e he) (by norm_num) (Or.inr hdo)
    · intro k t h0 ht hlt
      obtain ⟨hg, hne⟩ := hrec k t h0 ht hlt
      exact ⟨hsurv k t hg (le_of_lt hlt) (Or.inr hdo), hne⟩
  | true =>
    simp only [hdo, not_true_eq_false, if_false]
    by_cases hburst : c.burst_mode ∧ st.burst_count ≥ c.max_msgs
    · simp only [hburst, if_true]
      refine ⟨hwfd, ?_, hnodup, ?_⟩
      · intro e he
        rcases eq_or_ne e.key key with e1 | hne
        · rw [e1]
          exact dedupe_ok_marks st.seen key c.now 600 hdo
        · exact hsurv e.key c.now (hmarks e he) (by norm_num) (Or.inl hne)
      · intro k t h0 ht hlt
        obtain ⟨hg, hne⟩ := hrec k t h0 ht hlt
        have hkne : k ≠ key := by
          intro e
          rw [hkey_rec k t h0 ht hlt e] at hdo
          exact Bool.false_ne_true hdo
        exact ⟨hsurv k t hg (le_of_lt hlt) (Or.inl hkne), hne⟩
    · simp only [hburst, if_false]
      have holdne : ∀ e ∈ emits, e.key ≠ key := by
        intro e he hek
        rw [hkey_old e he hek] at hdo
        exact Bool.false_ne_true hdo
      refine ⟨hwfd, ?_, ?_, ?_⟩
      · intro e he
        rcases List.mem_append.mp he with hmem | hnew
        · exact hsurv e.key c.now (hmarks e hmem) (by norm_num)
            (Or.inl (holdne e hmem))
        · have : e.key = key := by
            rcases List.mem_singleton.mp hnew with e1
            rw [e1]
          rw [this]
          exact dedupe_ok_marks st.seen key c.now 600 hdo
      · rw [List.map_append]
        rw [List.nodup_append]
        refine ⟨hnodup, by simp, ?_⟩
        intro a ha
        rcases List.mem_map.mp ha with ⟨e, he, hek⟩
        simp only [List.map_cons, List.map_nil, List.mem_singleton]
        intro e2
        exact holdne e he (hek.trans e2)
      · intro k t h0 ht hlt
        obtain ⟨hg, hne⟩ := hrec k t h0 ht hlt
        have hkne : k ≠ key := by
          intro e
          rw [hkey_rec k t h0 ht hlt e] at hdo
          exact Bool.false_ne_true hdo
        refine ⟨hsurv k t hg (le_of_lt hlt) (Or.inl hkne), ?_⟩
        intro e he
        rcases List.mem_append.mp he with hmem | hnew
        · exact hne e hmem
        · rcases List.mem_singleton.mp hnew with e1
          rw [e1]
          exact fun e2 => hkne e2.symm

theorem stonEvLoop_good (c : EmitCtx) (pool : String) (min_buy : ℚ)
    (leg : Option Nat) (seen0 : Bucket) (hnow : 0 < c.now) :
    ∀ (evs : List StonEv) (st : PollState) (emits : List Emit) (idx : Nat)
      (posted : Bool), goodBucket seen0 c.now st.seen emits →
      goodBucket seen0 c.now
        (stonEvLoop c pool min_buy leg evs st emits idx posted).1.seen
        (stonEvLoop c pool min_buy leg evs st emits idx posted).2.1 := by
  intro evs
  induction evs with
  | nil =>
    intro st emits idx posted h
    simpa [stonEvLoop] using h
  | cons ev rest ih =>
    intro st emits idx posted h
    unfold stonEvLoop
    split
    · exact ih st emits idx posted h
    · split
      · exact ih st emits idx posted h
      · split
        · exact ih st emits idx posted h
        · split
          · exact ih st emits idx posted h
          · split
            · exact ih st emits idx posted h
            · split
              · exact ih st emits idx posted h
              · exact ih _ _ _ _ (tryEmit_good c st emits idx _ _ _ _ _ _ _ seen0 hnow h)

theorem stonFallbackBuys_good (c : EmitCtx) (pool : String) (min_buy : ℚ)
    (decimals : Option Nat) (txhash : String) (ut : Int) (seen0 : Bucket)
    (hnow : 0 < c.now) :
    ∀ (bs : List FallbackBuy) (st : PollState) (emits : List Emit) (idx : Nat),
      goodBucket seen0 c.now st.seen emits →
      goodBucket seen0 c.now
        (stonFallbackBuys c pool min_buy decimals txhash ut bs st emits idx).1.seen
        (stonFallbackBuys c pool min_buy decimals txhash ut bs st emits idx).2.1 := by
  intro bs
  induction bs with
  | nil =>
    intro st emits idx h
    simpa [stonFallbackBuys] using h
  | cons b rest ih =>
    intro st emits idx h
    unfold stonFallbackBuys
    dsimp only
    split
    · exact ih st emits idx h
    · exact ih _ _ _ (tryEmit_good c st emits idx _ _ _ _ _ _ _ seen0 hnow h)

theorem stonFallbackLoop_good (c : EmitCtx) (pool : String) (min_buy : ℚ)
    (decimals : Option Nat) (seen0 : Bucket) (hnow : 0 < c.now) :
    ∀ (txs : List FallbackTx) (st : PollState) (emits : List Emit) (idx : Nat),
      goodBucket seen0 c.now st.seen emits →
      goodBucket seen0 c.now
        (stonFallbackLoop c pool min_buy decimals txs st emits idx).1.seen
        (stonFallbackLoop c pool min_buy decimals txs st emits idx).2.1 := by
  intro txs
  induction txs with
  | nil =>
    intro st emits idx h
    simpa [stonFallbackLoop] using h
  | cons txo rest ih =>
    intro st emits idx h
    unfold stonFallbackLoop
    split
    · exact ih st emits idx h
    · exact ih _ _ _ (stonFallbackBuys_good c pool min_buy decimals txo.txhash
        txo.utime seen0 hnow txo.buys st emits idx h)

theorem dedustLoop_good (c : EmitCtx) (pool : String) (min_buy : ℚ)
    (last_lt last_ts ignore_before : Int) (seen0 : Bucket) (hnow : 0 < c.now) :
    ∀ (items : List DItem) (st : PollState) (emits : List Emit) (idx : Nat)
      (maxLt maxTs : Int), goodBucket seen0 c.now st.seen emits →
      goodBucket seen0 c.now
        (dedustLoop c pool min_buy last_lt last_ts ignore_before items st emits idx maxLt maxTs).1.seen
        (dedustLoop c pool min_buy last_lt last_ts ignore_before items st emits idx maxLt maxTs).2.1 := by
  intro items
  induction items with
  | nil =>
    intro st emits idx maxLt maxTs h
    simpa [dedustLoop] using h
  | cons it rest ih =>
    intro st emits idx maxLt maxTs h
    unfold dedustLoop
    split
    · exact ih st emits idx maxLt maxTs h
    · split
      · exact ih st emits idx maxLt maxTs h
      · split
        · exact ih st emits idx maxLt maxTs h
        · exact ih _ _ _ _ _ (tryEmit_good c st emits idx _ _ _ _ _ _ _ seen0 hnow h)

theorem ensure_ton_leg_seen (st : PollState) (l : Option Nat) :
    (ensure_ton_leg st l).2.seen = st.seen := by
  unfold ensure_ton_leg
  split
  · split <;> rfl
  · split <;> rfl

theorem stonStep_good (c : EmitCtx) (cfg : ChatCfg) (env : CycleEnv)
    (min_buy : ℚ) (seen0 : Bucket) (hnow : 0 < c.now)
    (st : PollState) (emits : List Emit) (idx : Nat)
    (h : goodBucket seen0 c.now st.seen emits) :
    goodBucket seen0 c.now (stonStep c cfg env min_buy st emits idx).1.seen
      (stonStep c cfg env min_buy st emits idx).2.1 := by
  unfold stonStep
  cases hl : env.latest with
  | none => simpa using h
  | some latest =>
    dsimp only
    have h1 : goodBucket seen0 c.now (ensure_ton_leg { st with ston_last_block := some (stonRange (stonInitCursor st.ston_last_block latest) latest).2 } env.ton_leg_lookup).2.seen emits := by
      rw [ensure_ton_leg_seen]
      exact h
    have h2 := stonEvLoop_good c cfg.ston_pool min_buy (ensure_ton_leg { st with ston_last_block := some (stonRange (stonInitCursor st.ston_last_block latest) latest).2 } env.ton_leg_lookup).1 seen0 hnow (env.ston_events (stonRange (stonInitCursor st.ston_last_block latest) latest).1 (stonRange (stonInitCursor st.ston_last_block latest) latest).2) _ emits idx false h1
    split
    · exact h2
    · exact stonFallbackLoop_good c cfg.ston_pool min_buy _ seen0 hnow _ _ _ _ h2

theorem dedustStep_good (c : EmitCtx) (pool addr : String) (min_buy : ℚ)
    (trades : List DedustTrade) (seen0 : Bucket) (hnow : 0 < c.now)
    (st : PollState) (emits : List Emit) (idx : Nat)
    (h : goodBucket seen0 c.now st.seen emits) :
    goodBucket seen0 c.now
      (dedustStep c pool addr min_buy trades st emits idx).1.seen
      (dedustStep c pool addr min_buy trades st emits idx).2.1 := by
  unfold dedustStep
  dsimp only
  have h2 := dedustLoop_good c pool min_buy st.last_dedust_trade st.last_dedust_ts
    st.ignore_before_ts seen0 hnow (sortByKey (trades.filterMap (dedustItem addr)))
    st emits idx st.last_dedust_trade st.last_dedust_ts h
  split
  · split
    · exact h2
    · exact h2
  · split
    · exact h2
    · exact h2

theorem chatPollOnce_goodOrEmpty (cfg : ChatCfg) (env : CycleEnv) (st : PollState)
    (hnow : 0 < env.now) (hwf : wfBucket st.seen) :
    goodBucket st.seen env.now (chatPollOnce cfg env st).1.seen
      (chatPollOnce cfg env st).2 ∨ (chatPollOnce cfg env st).2 = [] := by
  unfold chatPollOnce
  split
  · right; rfl
  · split
    · right; rfl
    · left
      dsimp only
      have hbase : goodBucket st.seen env.now
          (burstReset st env.now (anti_spam_limit cfg.anti_spam).2).seen [] := by
        refine ⟨?_, by simp, List.nodup_nil, ?_⟩
        · unfold burstReset
          split <;> exact hwf
        · intro k t hg _ _
          refine ⟨?_, by simp⟩
          unfold burstReset
          split <;> exact hg
      have hc : (0 : Int) <
          ({ burst_mode := cfg.burst_mode, max_msgs := (anti_spam_limit cfg.anti_spam).1,
             now := env.now, emit_ok := env.emit_ok } : EmitCtx).now := hnow
      by_cases hs : cfg.enable_ston = true ∧ ¬ cfg.ston_pool = ""
      · rw [if_pos hs]
        have h1 := stonStep_good _ cfg env (min_buy_ton_threshold cfg env.price) st.seen hc
          (burstReset st env.now (anti_spam_limit cfg.anti_spam).2) [] 0 hbase
        by_cases hd : cfg.enable_dedust = true ∧ ¬ cfg.dedust_pool = ""
        · rw [if_pos hd]
          exact dedustStep_good _ cfg.dedust_pool cfg.token_address
            (min_buy_ton_threshold cfg env.price) env.dedust_trades st.seen hc _ _ _ h1
        · rw [if_neg hd]
          exact h1
      · rw [if_neg hs]
        by_cases hd : cfg.enable_dedust = true ∧ ¬ cfg.dedust_pool = ""
        · rw [if_pos hd]
          exact dedustStep_good _ cfg.dedust_pool cfg.token_address
            (min_buy_ton_threshold cfg env.price) env.dedust_trades st.seen hc _ _ _ hbase
        · rw [if_neg hd]
          exact hbase

/-- C2 (amended): within one poll cycle at a positive wall-clock time and
with a well-formed dedup bucket, the dedupe keys of the emitted
notifications are pairwise distinct, and no notification re-uses a key
that the cycle-initial bucket marks with a nonzero timestamp less than
the 600-second dedup TTL old.  (The original claim — at most one emit per
(chat, event identity) across any number of cycles — fails because the
two source paths derive different dedupe keys for the same transaction
hash; see the counterexample.) -/
theorem C2_amended (cfg : ChatCfg) (env : CycleEnv) (st : PollState)
    (hnow : 0 < env.now) (hwf : wfBucket st.seen) :
    keysDistinct (chatPollOnce cfg env st).2 = true ∧
    noRecentReEmit st.seen env.now (chatPollOnce cfg env st).2 = true := by
  rcases chatPollOnce_goodOrEmpty cfg env st hnow hwf with hg | he
  · obtain ⟨_, _, hnodup, hrec⟩ := hg
    constructor
    · exact decide_eq_true hnodup
    · unfold noRecentReEmit
      rw [List.all_eq_true]
      intro e hee
      cases hg2 : bucketGet st.seen e.key with
      | none => rfl
      | some t =>
        by_cases ht : t = 0
        · simp [ht]
        · by_cases hlt : env.now - t < 600
          · exact absurd rfl ((hrec e.key t hg2 ht hlt).2 e hee)
          · simp [ht, not_lt.mp hlt]
  · rw [he]
    exact ⟨rfl, rfl⟩

theorem respectsIgnoreBefore_all (ib : Int) (es : List Emit) :
    respectsIgnoreBefore ib es = es.all (ibOk ib) := rfl

theorem ibOk_of_guard (ib ts : Int) (h : ¬ (ib ≠ 0 ∧ ts ≠ 0 ∧ ts < ib))
    (e : Emit) (hts : e.ts = ts) : ibOk ib e = true := by
  unfold ibOk
  rw [hts]
  by_cases h1 : ib = 0
  · simp [h1]
  · by_cases h2 : ts = 0
    · simp [h2]
    · push_neg at h
      have := h h1 h2
      simp [h1, h2, this]

theorem tryEmit_emits_mem (c : EmitCtx) (st : PollState) (emits : List Emit)
    (idx : Nat) (key source tx buyer : String) (ton tokAmt : ℚ) (ts : Int) :
    ∀ e ∈ (tryEmit c st emits idx key source tx buyer ton tokAmt ts).2.1,
      e ∈ emits ∨ (e.key = key ∧ e.ts = ts) := by
  intro e he
  unfold tryEmit at he
  dsimp only at he
  split_ifs at he <;> dsimp only at he
  all_goals try exact Or.inl he
  rcases List.mem_append.mp he with hmem | hnew
  · exact Or.inl hmem
  · rcases List.mem_singleton.mp hnew with e1
    rw [e1]
    exact Or.inr ⟨rfl, rfl⟩

theorem tryEmit_fields (c : EmitCtx) (st : PollState) (emits : List Emit)
    (idx : Nat) (key source tx buyer : String) (ton tokAmt : ℚ) (ts : Int) :
    (tryEmit c st emits idx key source tx buyer ton tokAmt ts).1.ignore_before_ts
        = st.ignore_before_ts ∧
    (tryEmit c st emits idx key source tx buyer ton tokAmt ts).1.ston_last_block
        = st.ston_last_block ∧
    (tryEmit c st emits idx key source tx buyer ton tokAmt ts).1.last_dedust_trade
        = st.last_dedust_trade ∧
    (tryEmit c st emits idx key source tx buyer ton tokAmt ts).1.last_dedust_ts
        = st.last_dedust_ts ∧
    (tryEmit c st emits idx key source tx buyer ton tokAmt ts).1.decimals
        = st.decimals := by
  unfold tryEmit
  dsimp only
  split_ifs <;> exact ⟨rfl, rfl, rfl, rfl, rfl⟩

theorem stonEvLoop_ib (c : EmitCtx) (pool : String) (min_buy : ℚ)
    (leg : Option Nat) (ib : Int) :
    ∀ (evs : List StonEv) (st : PollState) (emits : List Emit) (idx : Nat)
      (posted : Bool), st.ignore_before_ts = ib →
      (∀ e ∈ emits, ibOk ib e = true) →
      ∀ e ∈ (stonEvLoop c pool min_buy leg evs st emits idx posted).2.1,
        ibOk ib e = true := by
  intro evs
  induction evs with
  | nil =>
    intro st emits idx posted hst hall
    simpa [stonEvLoop] using hall
  | cons ev rest ih =>
    intro st emits idx posted hst hall
    unfold stonEvLoop
    split
    · exact ih st emits idx posted hst hall
    · by_cases hguard : st.ignore_before_ts ≠ 0 ∧ ev.timestamp ≠ 0 ∧
          ev.timestamp < st.ignore_before_ts
      · rw [if_pos hguard]
        exact ih st emits idx posted hst hall
      · rw [if_neg hguard]
        split
        · exact ih st emits idx posted hst hall
        · split
          · exact ih st emits idx posted hst hall
          · split
            · exact ih st emits idx posted hst hall
            · split
              · exact ih st emits idx posted hst hall
              · refine ih _ _ _ _ ?_ ?_
                · rw [(tryEmit_fields c st emits idx _ _ _ _ _ _ _).1, hst]
                · intro e he
                  rcases tryEmit_emits_mem c st emits idx _ _ _ _ _ _ _ e he with
                    hmem | ⟨_, hts⟩
                  · exact hall e hmem
                  · refine ibOk_of_guard ib ev.timestamp ?_ e hts
                    rw [hst] at hguard
                    exact hguard

theorem stonFallbackBuys_ib (c : EmitCtx) (pool : String) (min_buy : ℚ)
    (decimals : Option Nat) (txhash : String) (ut : Int) (ib : Int)
    (hut : ∀ (e : Emit), e.ts = ut → ibOk ib e = true) :
    ∀ (bs : List FallbackBuy) (st : PollState) (emits : List Emit) (idx : Nat),
      (∀ e ∈ emits, ibOk ib e = true) →
      ∀ e ∈ (stonFallbackBuys c pool min_buy decimals txhash ut bs st emits idx).2.1,
        ibOk ib e = true := by
  intro bs
  induction bs with
  | nil =>
    intro st emits idx hall
    simpa [stonFallbackBuys] using hall
  | cons b rest ih =>
    intro st emits idx hall
    unfold stonFallbackBuys
    dsimp only
    split
    · exact ih st emits idx hall
    · refine ih _ _ _ ?_
      intro e he
      rcases tryEmit_emits_mem c st emits idx _ _ _ _ _ _ _ e he with hmem | ⟨_, hts⟩
      · exact hall e hmem
      · exact hut e hts

theorem stonFallbackLoop_ib (c : EmitCtx) (pool : String) (min_buy : ℚ)
    (decimals : Option Nat) (ib : Int) :
    ∀ (txs : List FallbackTx) (st : PollState) (emits : List Emit) (idx : Nat),
      st.ignore_before_ts = ib →
      (∀ e ∈ emits, ibOk ib e = true) →
      ∀ e ∈ (stonFallbackLoop c pool min_buy decimals txs st emits idx).2.1,
        ibOk ib e = true := by
  intro txs
  induction txs with
  | nil =>
    intro st emits idx hst hall
    simpa [stonFallbackLoop] using hall
  | cons txo rest ih =>
    intro st emits idx hst hall
    unfold stonFallbackLoop
    by_cases hguard : st.ignore_before_ts ≠ 0 ∧ txo.utime ≠ 0 ∧
        txo.utime < st.ignore_before_ts
    · rw [if_pos hguard]
      exact ih st emits idx hst hall
    · rw [if_neg hguard]
      have hst2 : (stonFallbackBuys c pool min_buy decimals txo.txhash txo.utime
          txo.buys st emits idx).1.ignore_before_ts = ib := by
        have : ∀ (bs : List FallbackBuy) (st' : PollState) (emits' : List Emit)
            (idx' : Nat),
            (stonFallbackBuys c pool min_buy decimals txo.txhash txo.utime
              bs st' emits' idx').1.ignore_before_ts = st'.ignore_before_ts := by
          intro bs
          induction bs with
          | nil => intro st' emits' idx'; rfl
          | cons b rest2 ih2 =>
            intro st' emits' idx'
            unfold stonFallbackBuys
            dsimp only
            split
            · exact ih2 st' emits' idx'
            · rw [ih2 _ _ _, (tryEmit_fields c st' emits' idx' _ _ _ _ _ _ _).1]
        rw [this, hst]
      refine ih _ _ _ hst2 ?_
      apply stonFallbackBuys_ib c pool min_buy decimals txo.txhash txo.utime ib ?_
        txo.buys st emits idx hall
      intro e hts
      rw [hst] at hguard
      exact ibOk_of_guard ib txo.utime hguard e hts

theorem dedustLoop_ib (c : EmitCtx) (pool : String) (min_buy : ℚ)
    (last_lt last_ts ignore_before : Int) (ib : Int) (hib : ignore_before = ib) :
    ∀ (items : List DItem) (st : PollState) (emits : List Emit) (idx : Nat)
      (maxLt maxTs : Int),
      (∀ e ∈ emits, ibOk ib e = true) →
      ∀ e ∈ (dedustLoop c pool min_buy last_lt last_ts ignore_before items
          st emits idx maxLt maxTs).2.1, ibOk ib e = true := by
  intro items
  induction items with
  | nil =>
    intro st emits idx maxLt maxTs hall
    simpa [dedustLoop] using hall
  | cons it rest ih =>
    intro st emits idx maxLt maxTs hall
    unfold dedustLoop
    by_cases hguard : ignore_before ≠ 0 ∧ it.ts ≠ 0 ∧ it.ts < ignore_before
    · rw [if_pos hguard]
      exact ih st emits idx maxLt maxTs hall
    · rw [if_neg hguard]
      split
      · exact ih st emits idx maxLt maxTs hall
      · split
        · exact ih st emits idx maxLt maxTs hall
        · refine ih _ _ _ _ _ ?_
          intro e he
          rcases tryEmit_emits_mem c st emits idx _ _ _ _ _ _ _ e he with hmem | ⟨_, hts⟩
          · exact hall e hmem
          · rw [hib] at hguard
            exact ibOk_of_guard ib it.ts hguard e hts

theorem stonEvLoop_fields (c : EmitCtx) (pool : String) (min_buy : ℚ)
    (leg : Option Nat) :
    ∀ (evs : List StonEv) (st : PollState) (emits : List Emit) (idx : Nat)
      (posted : Bool),
      (stonEvLoop c pool min_buy leg evs st emits idx posted).1.ignore_before_ts
          = st.ignore_before_ts ∧
      (stonEvLoop c pool min_buy leg evs st emits idx posted).1.ston_last_block
          = st.ston_last_block ∧
      (stonEvLoop c pool min_buy leg evs st emits idx posted).1.last_dedust_trade
          = st.last_dedust_trade ∧
      (stonEvLoop c pool min_buy leg evs st emits idx posted).1.last_dedust_ts
          = st.last_dedust_ts ∧
      (stonEvLoop c pool min_buy leg evs st emits idx posted).1.decimals
          = st.decimals := by
  intro evs
  induction evs with
  | nil => intro st emits idx posted; exact ⟨rfl, rfl, rfl, rfl, rfl⟩
  | cons ev rest ih =>
    intro st emits idx posted
    unfold stonEvLoop
    split
    · exact ih st emits idx posted
    · split
      · exact ih st emits idx posted
      · split
        · exact ih st emits idx posted
        · split
          · exact ih st emits idx posted
          · split
            · exact ih st emits idx posted
            · split
              · exact ih st emits idx posted
              · obtain ⟨f1, f2, f3, f4, f5⟩ := tryEmit_fields c st emits idx
                  ("ston:" ++ pool ++ ":" ++ ev.txnId) "STON.fi" ev.txnId ev.maker
                  _ _ ev.timestamp
                obtain ⟨g1, g2, g3, g4, g5⟩ := ih
                  (tryEmit c st emits idx ("ston:" ++ pool ++ ":" ++ ev.txnId)
                    "STON.fi" ev.txnId ev.maker _ _ ev.timestamp).1 _ _ _
                exact ⟨g1.trans f1, g2.trans f2, g3.trans f3, g4.trans f4, g5.trans f5⟩

theorem stonFallbackBuys_fields (c : EmitCtx) (pool : String) (min_buy : ℚ)
    (decimals : Option Nat) (txhash : String) (ut : Int) :
    ∀ (bs : List FallbackBuy) (st : PollState) (emits : List Emit) (idx : Nat),
      (stonFallbackBuys c pool min_buy decimals txhash ut bs st emits idx).1.ignore_before_ts
          = st.ignore_before_ts ∧
      (stonFallbackBuys c pool min_buy decimals txhash ut bs st emits idx).1.ston_last_block
          = st.ston_last_block ∧
      (stonFallbackBuys c pool min_buy decimals txhash ut bs st emits idx).1.last_dedust_trade
          = st.last_dedust_trade ∧
      (stonFallbackBuys c pool min_buy decimals txhash ut bs st emits idx).1.last_dedust_ts
          = st.last_dedust_ts := by
  intro bs
  induction bs with
  | nil => intro st emits idx; exact ⟨rfl, rfl, rfl, rfl⟩
  | cons b rest ih =>
    intro st emits idx
    unfold stonFallbackBuys
    dsimp only
    split
    · exact ih st emits idx
    · obtain ⟨f1, f2, f3, f4, _⟩ := tryEmit_fields c st emits idx _ "STON.fi v2" _
        b.buyer _ _ ut
      obtain ⟨g1, g2, g3, g4⟩ := ih _ _ _
      exact ⟨g1.trans f1, g2.trans f2, g3.trans f3, g4.trans f4⟩

theorem stonFallbackLoop_fields (c : EmitCtx) (pool : String) (min_buy : ℚ)
    (decimals : Option Nat) :
    ∀ (txs : List FallbackTx) (st : PollState) (emits : List Emit) (idx : Nat),
      (stonFallbackLoop c pool min_buy decimals txs st emits idx).1.ignore_before_ts
          = st.ignore_before_ts ∧
      (stonFallbackLoop c pool min_buy decimals txs st emits idx).1.ston_last_block
          = st.ston_last_block ∧
      (stonFallbackLoop c pool min_buy decimals txs st emits idx).1.last_dedust_trade
          = st.last_dedust_trade ∧
      (stonFallbackLoop c pool min_buy decimals txs st emits idx).1.last_dedust_ts
          = st.last_dedust_ts := by
  intro txs
  induction txs with
  | nil => intro st emits idx; exact ⟨rfl, rfl, rfl, rfl⟩
  | cons txo rest ih =>
    intro st emits idx
    unfold stonFallbackLoop
    split
    · exact ih st emits idx
    · obtain ⟨f1, f2, f3, f4⟩ := stonFallbackBuys_fields c pool min_buy decimals
        txo.txhash txo.utime txo.buys st emits idx
      obtain ⟨g1, g2, g3, g4⟩ := ih _ _ _
      exact ⟨g1.trans f1, g2.trans f2, g3.trans f3, g4.trans f4⟩

theorem dedustLoop_fields (c : EmitCtx) (pool : String) (min_buy : ℚ)
    (last_lt last_ts ignore_before : Int) :
    ∀ (items : List DItem) (st : PollState) (emits : List Emit) (idx : Nat)
      (maxLt maxTs : Int),
      (dedustLoop c pool min_buy last_lt last_ts ignore_before items st emits
        idx maxLt maxTs).1.ignore_before_ts = st.ignore_before_ts ∧
      (dedustLoop c pool min_buy last_lt last_ts ignore_before items st emits
        idx maxLt maxTs).1.ston_last_block = st.ston_last_block ∧
      (dedustLoop c pool min_buy last_lt last_ts ignore_before items st emits
        idx maxLt maxTs).1.last_dedust_trade = st.last_dedust_trade ∧
      (dedustLoop c pool min_buy last_lt last_ts ignore_before items st emits
        idx maxLt maxTs).1.last_dedust_ts = st.last_dedust_ts := by
  intro items
  induction items with
  | nil => intro st emits idx maxLt maxTs; exact ⟨rfl, rfl, rfl, rfl⟩
  | cons it rest ih =>
    intro st emits idx maxLt maxTs
    unfold dedustLoop
    split
    · exact ih st emits idx maxLt maxTs
    · split
      · exact ih st emits idx maxLt maxTs
      · split
        · exact ih st emits idx maxLt maxTs
        · obtain ⟨f1, f2, f3, f4, _⟩ := tryEmit_fields c st emits idx _ "DeDust"
            it.b.tx it.b.buyer it.b.ton it.b.token_amount it.ts
          obtain ⟨g1, g2, g3, g4⟩ := ih _ _ _ _ _
          exact ⟨g1.trans f1, g2.trans f2, g3.trans f3, g4.trans f4⟩

theorem le_if_gt (A : Prop) [Decidable A] (lt maxv : Int) :
    maxv ≤ if A ∧ lt ≠ 0 ∧ lt > maxv then lt else maxv := by
  split
  · next h => exact le_of_lt h.2.2
  · exact le_refl _

theorem dedustLoop_max_mono (c : EmitCtx) (pool : String) (min_buy : ℚ)
    (last_lt last_ts ignore_before : Int) :
    ∀ (items : List DItem) (st : PollState) (emits : List Emit) (idx : Nat)
      (maxLt maxTs : Int),
      maxLt ≤ (dedustLoop c pool min_buy last_lt last_ts ignore_before items
        st emits idx maxLt maxTs).2.2.2.1 ∧
      maxTs ≤ (dedustLoop c pool min_buy last_lt last_ts ignore_before items
        st emits idx maxLt maxTs).2.2.2.2 := by
  intro items
  induction items with
  | nil => intro st emits idx maxLt maxTs; exact ⟨le_refl _, le_refl _⟩
  | cons it rest ih =>
    intro st emits idx maxLt maxTs
    unfold dedustLoop
    split
    · exact ih st emits idx maxLt maxTs
    · split
      · exact ih st emits idx maxLt maxTs
      · split
        · exact ih st emits idx maxLt maxTs
        · obtain ⟨g1, g2⟩ := ih _ _ _ _ _
          exact ⟨le_trans (le_if_gt _ _ _) g1, le_trans (le_if_gt _ _ _) g2⟩

theorem ensure_ton_leg_fields (st : PollState) (l : Option Nat) :
    (ensure_ton_leg st l).2.ignore_before_ts = st.ignore_before_ts ∧
    (ensure_ton_leg st l).2.ston_last_block = st.ston_last_block ∧
    (ensure_ton_leg st l).2.last_dedust_trade = st.last_dedust_trade ∧
    (ensure_ton_leg st l).2.last_dedust_ts = st.last_dedust_ts ∧
    (ensure_ton_leg st l).2.decimals = st.decimals := by
  unfold ensure_ton_leg
  split
  · split <;> exact ⟨rfl, rfl, rfl, rfl, rfl⟩
  · split <;> exact ⟨rfl, rfl, rfl, rfl, rfl⟩

theorem stonStep_ib (c : EmitCtx) (cfg : ChatCfg) (env : CycleEnv)
    (min_buy : ℚ) (ib : Int) (st : PollState) (emits : List Emit) (idx : Nat)
    (hst : st.ignore_before_ts = ib) (hall : ∀ e ∈ emits, ibOk ib e = true) :
    ∀ e ∈ (stonStep c cfg env min_buy st emits idx).2.1, ibOk ib e = true := by
  unfold stonStep
  cases hl : env.latest with
  | none => simpa using hall
  | some latest =>
    dsimp only
    have hst1 : (ensure_ton_leg { st with ston_last_block := some (stonRange (stonInitCursor st.ston_last_block latest) latest).2 } env.ton_leg_lookup).2.ignore_before_ts = ib := by
      rw [(ensure_ton_leg_fields _ _).1]
      exact hst
    have h2 := stonEvLoop_ib c cfg.ston_pool min_buy (ensure_ton_leg { st with ston_last_block := some (stonRange (stonInitCursor st.ston_last_block latest) latest).2 } env.ton_leg_lookup).1 ib (env.ston_events (stonRange (stonInitCursor st.ston_last_block latest) latest).1 (stonRange (stonInitCursor st.ston_last_block latest) latest).2) _ emits idx false hst1 hall
    split
    · exact h2
    · refine stonFallbackLoop_ib c cfg.ston_pool min_buy _ ib _ _ _ _ ?_ h2
      rw [(stonEvLoop_fields c cfg.ston_pool min_buy _ _ _ _ _ _).1]
      exact hst1

theorem dedustStep_ib (c : EmitCtx) (pool addr : String) (min_buy : ℚ)
    (trades : List DedustTrade) (ib : Int) (st : PollState) (emits : List Emit)
    (idx : Nat) (hst : st.ignore_before_ts = ib)
    (hall : ∀ e ∈ emits, ibOk ib e = true) :
    ∀ e ∈ (dedustStep c pool addr min_buy trades st emits idx).2.1,
      ibOk ib e = true := by
  unfold dedustStep
  dsimp only
  exact dedustLoop_ib c pool min_buy st.last_dedust_trade st.last_dedust_ts
    st.ignore_before_ts ib hst (sortByKey (trades.filterMap (dedustItem addr)))
    st emits idx st.last_dedust_trade st.last_dedust_ts hall

theorem stonRange_snd (a b : Int) : (stonRange a b).2 = b := rfl

theorem burstReset_fields (st : PollState) (now window : Int) :
    (burstReset st now window).ignore_before_ts = st.ignore_before_ts ∧
    (burstReset st now window).ston_last_block = st.ston_last_block ∧
    (burstReset st now window).last_dedust_trade = st.last_dedust_trade ∧
    (burstReset st now window).last_dedust_ts = st.last_dedust_ts ∧
    (burstReset st now window).paused = st.paused ∧
    (burstReset st now window).init_done = st.init_done := by
  unfold burstReset
  split <;> exact ⟨rfl, rfl, rfl, rfl, rfl, rfl⟩

theorem stonStep_fields (c : EmitCtx) (cfg : ChatCfg) (env : CycleEnv)
    (min_buy : ℚ) (st : PollState) (emits : List Emit) (idx : Nat) :
    (stonStep c cfg env min_buy st emits idx).1.ignore_before_ts
        = st.ignore_before_ts ∧
    (stonStep c cfg env min_buy st emits idx).1.last_dedust_trade
        = st.last_dedust_trade ∧
    (stonStep c cfg env min_buy st emits idx).1.last_dedust_ts
        = st.last_dedust_ts ∧
    ((stonStep c cfg env min_buy st emits idx).1.ston_last_block
        = st.ston_last_block ∨
     (stonStep c cfg env min_buy st emits idx).1.ston_last_block = env.latest) := by
  unfold stonStep
  cases hl : env.latest with
  | none => exact ⟨rfl, rfl, rfl, Or.inl rfl⟩
  | some latest =>
    dsimp only
    obtain ⟨e1, e2, e3, e4, _⟩ := ensure_ton_leg_fields { st with ston_last_block := some (stonRange (stonInitCursor st.ston_last_block latest) latest).2 } env.ton_leg_lookup
    obtain ⟨l1, l2, l3, l4, _⟩ := stonEvLoop_fields c cfg.ston_pool min_buy (ensure_ton_leg { st with ston_last_block := some (stonRange (stonInitCursor st.ston_last_block latest) latest).2 } env.ton_leg_lookup).1 (env.ston_events (stonRange (stonInitCursor st.ston_last_block latest) latest).1 (stonRange (stonInitCursor st.ston_last_block latest) latest).2) (ensure_ton_leg { st with ston_last_block := some (stonRange (stonInitCursor st.ston_last_block latest) latest).2 } env.ton_leg_lookup).2 emits idx false
    split
    · refine ⟨l1.trans e1, l3.trans e3, l4.trans e4, Or.inr ?_⟩
      rw [l2.trans e2]
      rfl
    · obtain ⟨f1, f2, f3, f4⟩ := stonFallbackLoop_fields c cfg.ston_pool min_buy _ env.fallback_txs.reverse _ _ _
      refine ⟨f1.trans (l1.trans e1), f3.trans (l3.trans e3),
        f4.trans (l4.trans e4), Or.inr ?_⟩
      rw [f2.trans (l2.trans e2)]
      rfl

theorem dedustStep_fields (c : EmitCtx) (pool addr : String) (min_buy : ℚ)
    (trades : List DedustTrade) (st : PollState) (emits : List Emit) (idx : Nat) :
    (dedustStep c pool addr min_buy trades st emits idx).1.ignore_before_ts
        = st.ignore_before_ts ∧
    (dedustStep c pool addr min_buy trades st emits idx).1.ston_last_block
        = st.ston_last_block ∧
    st.last_dedust_trade ≤
      (dedustStep c pool addr min_buy trades st emits idx).1.last_dedust_trade ∧
    st.last_dedust_ts ≤
      (dedustStep c pool addr min_buy trades st emits idx).1.last_dedust_ts := by
  unfold dedustStep
  dsimp only
  obtain ⟨l1, l2, l3, l4⟩ := dedustLoop_fields c pool min_buy st.last_dedust_trade
    st.last_dedust_ts st.ignore_before_ts
    (sortByKey (trades.filterMap (dedustItem addr))) st emits idx
    st.last_dedust_trade st.last_dedust_ts
  obtain ⟨m1, m2⟩ := dedustLoop_max_mono c pool min_buy st.last_dedust_trade
    st.last_dedust_ts st.ignore_before_ts
    (sortByKey (trades.filterMap (dedustItem addr))) st emits idx
    st.last_dedust_trade st.last_dedust_ts
  split
  · split
    · exact ⟨l1, l2, m1, m2⟩
    · exact ⟨l1, l2, le_of_eq l3.symm, m2⟩
  · split
    · exact ⟨l1, l2, m1, le_of_eq l4.symm⟩
    · exact ⟨l1, l2, le_of_eq l3.symm, le_of_eq l4.symm⟩

/-- C8 (amended): no record whose checked timestamp is nonzero and
strictly before the warmup instant `ignore_before_ts` ever results in a
notification, on the STON block path, the STON v2 fallback path and the
DeDust list path alike.  (The original claim fails for records whose
timestamp field is 0/missing: they bypass the ignore-before guard; see
the counterexample.) -/
theorem C8_amended (cfg : ChatCfg) (env : CycleEnv) (st : PollState) :
    respectsIgnoreBefore st.ignore_before_ts (chatPollOnce cfg env st).2 = true := by
  unfold chatPollOnce
  split
  · rfl
  · split
    · rfl
    · dsimp only
      rw [respectsIgnoreBefore_all, List.all_eq_true]
      have hbase : (burstReset st env.now (anti_spam_limit cfg.anti_spam).2).ignore_before_ts = st.ignore_before_ts :=
        (burstReset_fields st env.now (anti_spam_limit cfg.anti_spam).2).1
      by_cases hs : cfg.enable_ston = true ∧ ¬ cfg.ston_pool = ""
      · rw [if_pos hs]
        have h1 := stonStep_ib { burst_mode := cfg.burst_mode, max_msgs := (anti_spam_limit cfg.anti_spam).1, now := env.now, emit_ok := env.emit_ok } cfg env (min_buy_ton_threshold cfg env.price)
          st.ignore_before_ts (burstReset st env.now (anti_spam_limit cfg.anti_spam).2) [] 0
          hbase (by simp)
        by_cases hd : cfg.enable_dedust = true ∧ ¬ cfg.dedust_pool = ""
        · rw [if_pos hd]
          refine dedustStep_ib _ cfg.dedust_pool cfg.token_address
            (min_buy_ton_threshold cfg env.price) env.dedust_trades
            st.ignore_before_ts _ _ _ ?_ h1
          rw [(stonStep_fields _ cfg env (min_buy_ton_threshold cfg env.price) _ [] 0).1]
          exact hbase
        · rw [if_neg hd]
          exact h1
      · rw [if_neg hs]
        by_cases hd : cfg.enable_dedust = true ∧ ¬ cfg.dedust_pool = ""
        · rw [if_pos hd]
          exact dedustStep_ib _ cfg.dedust_pool cfg.token_address
            (min_buy_ton_threshold cfg env.price) env.dedust_trades
            st.ignore_before_ts _ _ _ hbase (by simp)
        · rw [if_neg hd]
          simp

/-- C3 (amended): in every post-warmup poll cycle the DeDust watermarks
`last_dedust_trade` and `last_dedust_ts` are non-decreasing, and the STON
block cursor is either left unchanged or set to the head value the
upstream reported this cycle — so it is non-decreasing whenever the
reported head is at least the stored cursor, but regresses when the head
regresses (see the counterexample). -/
theorem C3_amended (cfg : ChatCfg) (env : CycleEnv) (st : PollState)
    (hinit : st.init_done = true) :
    st.last_dedust_trade ≤ (chatPollOnce cfg env st).1.last_dedust_trade ∧
    st.last_dedust_ts ≤ (chatPollOnce cfg env st).1.last_dedust_ts ∧
    ((chatPollOnce cfg env st).1.ston_last_block = st.ston_last_block ∨
     (chatPollOnce cfg env st).1.ston_last_block = env.latest) := by
  unfold chatPollOnce
  by_cases hp : st.paused = true
  · rw [if_pos hp]
    exact ⟨le_refl _, le_refl _, Or.inl rfl⟩
  · rw [if_neg hp, if_neg (show ¬ ¬ st.init_done = true by simp [hinit])]
    dsimp only
    obtain ⟨b1, b2, b3, b4, _, _⟩ := burstReset_fields st env.now (anti_spam_limit cfg.anti_spam).2
    by_cases hs : cfg.enable_ston = true ∧ ¬ cfg.ston_pool = ""
    · rw [if_pos hs]
      obtain ⟨s1, s2, s3, s4⟩ := stonStep_fields _ cfg env (min_buy_ton_threshold cfg env.price) (burstReset st env.now (anti_spam_limit cfg.anti_spam).2) [] 0
      by_cases hd : cfg.enable_dedust = true ∧ ¬ cfg.dedust_pool = ""
      · rw [if_pos hd]
        obtain ⟨d1, d2, d3, d4⟩ := dedustStep_fields _ cfg.dedust_pool cfg.token_address (min_buy_ton_threshold cfg env.price) env.dedust_trades (stonStep _ cfg env (min_buy_ton_threshold cfg env.price) (burstReset st env.now (anti_spam_limit cfg.anti_spam).2) [] 0).1 _ _
        refine ⟨?_, ?_, ?_⟩
        · calc st.last_dedust_trade = _ := (s2.trans b3).symm
            _ ≤ _ := d3
        · calc st.last_dedust_ts = _ := (s3.trans b4).symm
            _ ≤ _ := d4
        · rw [d2]
          rcases s4 with h | h
          · exact Or.inl (h.trans b2)
          · exact Or.inr h
      · rw [if_neg hd]
        refine ⟨le_of_eq (s2.trans b3).symm, le_of_eq (s3.trans b4).symm, ?_⟩
        rcases s4 with h | h
        · exact Or.inl (h.trans b2)
        · exact Or.inr h
    · rw [if_neg hs]
      by_cases hd : cfg.enable_dedust = true ∧ ¬ cfg.dedust_pool = ""
      · rw [if_pos hd]
        obtain ⟨d1, d2, d3, d4⟩ := dedustStep_fields _ cfg.dedust_pool cfg.token_address (min_buy_ton_threshold cfg env.price) env.dedust_trades (burstReset st env.now (anti_spam_limit cfg.anti_spam).2) [] 0
        refine ⟨?_, ?_, Or.inl (d2.trans b2)⟩
        · calc st.last_dedust_trade = _ := b3.symm
            _ ≤ _ := d3
        · calc st.last_dedust_ts = _ := b4.symm
            _ ≤ _ := d4
      · rw [if_neg hd]
        exact ⟨le_of_eq b3.symm, le_of_eq b4.symm, Or.inl b2⟩

/-- C6: the threshold boundary is inclusive.  For a single qualifying
DeDust trade whose TON amount is `a` (below the nanoTON rescale guard)
and a configured native threshold `T`, the poll cycle emits no
notification when `a < T` and exactly one when `a ≥ T` — the comparison
is `nativeAmountSpent >= T`. -/
theorem C6_threshold_inclusive (a T : ℚ) (ha : a ≤ 100000000) :
    (chatPollOnce (c6cfg T) (c6env a) c6st).2.length = if a < T then 0 else 1 := by
  have hres : ¬ ((100000000 : ℚ) < a) := not_lt.mpr ha
  have hmb : min_buy_ton_threshold (c6cfg T) none = T := rfl
  have hasl : anti_spam_limit "MED" = (8, 30) := rfl
  have p1 : (c6cfg T).enable_ston = true := rfl
  have p2 : (c6cfg T).ston_pool = "" := rfl
  have p3 : (c6cfg T).enable_dedust = true := rfl
  have p4 : (c6cfg T).dedust_pool = "Q" := rfl
  have p5 : (c6cfg T).token_address = "A" := rfl
  have p6 : (c6cfg T).anti_spam = "MED" := rfl
  have p7 : (c6cfg T).burst_mode = true := rfl
  have e1 : pyToInt "7" = (7 : Int) := by decide
  have e3 : normalize_tx_hash_to_hex "zz" = "" := by decide
  have e4 : dedupe_ok [] "dedust:Q:zz" 100 600 = (true, [("dedust:Q:zz", 100)]) := by
    decide
  by_cases h : a < T
  · have hb : belowMin a T = true := decide_eq_true h
    rw [if_pos h]
    simp only [chatPollOnce, c6env, c6st, c6tr, p1, p2, p3, p4, p5, p6, p7,
      hmb, hasl, dedustStep, dedustItem, dedust_trade_to_buy, dedustLoop,
      sortByKey, insertIn, burstReset, orS, hres, hb, e1, e3, e4]
    simp [dedustIsNew, normTs, e1, hb, e3, e4, hres]
  · have hb : belowMin a T = false := decide_eq_false h
    rw [if_neg h]
    simp only [chatPollOnce, c6env, c6st, c6tr, p1, p2, p3, p4, p5, p6, p7,
      hmb, hasl, dedustStep, dedustItem, dedust_trade_to_buy, dedustLoop,
      sortByKey, insertIn, burstReset, orS, hres, hb, e1, e3, e4]
    simp [dedustIsNew, normTs, tryEmit, e4, e3, e1, hb, hres]

theorem fetchNewAux_none (data : List GeckoTrade) :
    fetchNewAux none data = data.filter (fun t => t.id ≠ "") := by
  induction data with
  | nil => rfl
  | cons t rest ih =>
    by_cases h : t.id = ""
    · simp [fetchNewAux, h, ih]
    · simp [fetchNewAux, truthyOpt, h, ih]

theorem fetchNewAux_some (l : String) (data : List GeckoTrade) :
    fetchNewAux (some l) data =
      (data.filter (fun t => t.id ≠ "")).takeWhile (fun t => t.id ≠ l) := by
  induction data with
  | nil => rfl
  | cons t rest ih =>
    by_cases h : t.id = ""
    · have hne : t.id ≠ l ∨ l = "" := by
        by_cases hl : l = ""
        · exact Or.inr hl
        · exact Or.inl (by rw [h]; exact fun e => hl e.symm)
      simp [fetchNewAux, h, ih]
    · by_cases hml : t.id = l
      · have hl : l ≠ "" := by rw [← hml]; exact h
        simp [fetchNewAux, truthyOpt, h, hml, hl, List.takeWhile]
      · simp [fetchNewAux, truthyOpt, h, hml, ih, List.takeWhile]

/-- C1 (counterexample): a poll cycle in which the only notification
attempt fails (the `emit_ok` oracle returns `false`) still marks the
event seen in the dedup cache (`dedupe_ok` marks during the check, before
`post_buy` is called) and still advances the STON block cursor past the
event (from 99 to the head 100, assigned before the event loop) —
refuting the claim that the dedup mark and cursor advance happen only
after a successful emit. -/
theorem C1_counterexample :
    c1run1.2.map Emit.ok = [false] ∧
    bucketGet c1run1.1.seen "ston:P:T1" = some 100 ∧
    c1st.ston_last_block = some 99 ∧
    c1run1.1.ston_last_block = some 100 := by decide

/-- C1 (amended): the dedup-cache mark and the cursor advance happen
regardless of the notification outcome — the mark occurs during the
dedupe check, before the emit attempt, and the STON cursor is set to the
head before the events are processed.  The resulting state is identical
under an always-failing and an always-succeeding emit oracle, and the
failed event is not re-attempted in the next cycle (the dedup entry
suppresses it for the TTL). -/
theorem C1_amended :
    c1run1.2 = [{ source := "STON.fi", key := "ston:P:T1", tx := "T1", buyer := "M", ton := 5, token_amount := 10, ts := 60, ok := false }] ∧
    bucketGet c1run1.1.seen "ston:P:T1" = some 100 ∧
    c1run1.1.ston_last_block = some 100 ∧
    (chatPollOnce c1cfg { c1env with emit_ok := fun _ => true } c1st).1 = c1run1.1 ∧
    c1run2.2 = [] := by decide

/-- C2 (counterexample): one underlying trade with the same 64-hex
transaction hash observed by both the STON events feed and the DeDust
trades feed is emitted twice in a single cycle, because the two paths
derive different dedupe keys (`ston:pool:hash` vs `tx:hash`) — refuting
at-most-once emission per (chat, event identity). -/
theorem C2_counterexample :
    c2run.2.map (fun e => normalize_tx_hash_to_hex e.tx) = [hex64a, hex64a] ∧
    c2run.2.length = 2 ∧
    hex64a ≠ "" := by decide

/-- C2 (witness): the amended theorem applied to a concrete cycle. -/
theorem C2_amended_witness :
    keysDistinct (chatPollOnce c1cfg c1env c1st).2 = true ∧
    noRecentReEmit c1st.seen c1env.now (chatPollOnce c1cfg c1env c1st).2 = true :=
  C2_amended c1cfg c1env c1st (by decide) (by unfold wfBucket; decide)

/-- C3 (counterexample): with the stored STON cursor at 100 and the
upstream reporting head 99, the cycle sets the cursor to 99 — the stored
cursor decreases, refuting unconditional monotonicity. -/
theorem C3_counterexample :
    c3st.ston_last_block = some 100 ∧
    c3run.1.ston_last_block = some 99 ∧
    (99 : Int) < 100 := by decide

/-- C3 (witness): the amended theorem applied to a concrete cycle. -/
theorem C3_amended_witness :
    c1st.last_dedust_trade ≤ (chatPollOnce c1cfg c1env c1st).1.last_dedust_trade ∧
    c1st.last_dedust_ts ≤ (chatPollOnce c1cfg c1env c1st).1.last_dedust_ts ∧
    ((chatPollOnce c1cfg c1env c1st).1.ston_last_block = c1st.ston_last_block ∨
     (chatPollOnce c1cfg c1env c1st).1.ston_last_block = c1env.latest) :=
  C3_amended c1cfg c1env c1st (by decide)

/-- C4 (counterexample): with the HIGH burst limit (N = 4), nine
qualifying trades (keys 1..9) and one below-threshold trade with the
page-maximum key 10, the cycle emits exactly 4 notifications but the
watermark stops at 4 — not at the maximum key observed in the page — and
the threshold-rejected trade is never marked seen, refuting the burst-cap
full-progress claim. -/
theorem C4_counterexample :
    c4run.2.length = 4 ∧
    (c4env.dedust_trades.map (fun tr => pyToInt tr.lt)).foldl max 0 = 10 ∧
    c4run.1.last_dedust_trade = 4 ∧
    ¬ c4run.1.last_dedust_trade = 10 ∧
    bucketGet c4run.1.seen "dedust:Q:a10" = none := by decide

/-- C4 (amended): with the HIGH burst limit (N = 4) and more than N
qualifying events in one window, exactly N notifications are emitted (the
first N in ordering-key order); every event that reaches the dedupe check
— including the burst-suppressed ones — is marked seen, but
threshold-rejected events are not marked, and the watermark advances only
to the maximum ordering key among the events actually notified. -/
theorem C4_amended :
    c4run.2.length = 4 ∧
    c4run.2.map Emit.key = ["dedust:Q:a1", "dedust:Q:a2", "dedust:Q:a3",
      "dedust:Q:a4"] ∧
    (["dedust:Q:a1", "dedust:Q:a2", "dedust:Q:a3", "dedust:Q:a4",
      "dedust:Q:a5", "dedust:Q:a6", "dedust:Q:a7", "dedust:Q:a8",
      "dedust:Q:a9"].all (fun k => bucketHas c4run.1.seen k)) = true ∧
    bucketGet c4run.1.seen "dedust:Q:a10" = none ∧
    c4run.1.last_dedust_trade = 4 ∧
    c4run.1.last_dedust_ts = 60 := by decide

/-- C5 (counterexample): at first-poll initialization with no stored
cursor and upstream head 100, the effective cursor is `max 0 (100 - 5) =
95`, strictly below the head, and the requested block range starts at 96
— blocks below the head at activation time are fetched, refuting the
no-margin claim. -/
theorem C5_counterexample :
    stonInitCursor none 100 = 95 ∧
    (95 : Int) < 100 ∧
    (stonRange (stonInitCursor none 100) 100).1 = 96 ∧
    (96 : Int) < 100 := by decide

/-- C5 (amended): for a chat with a DeDust pool configured, warmup sets
the STON block cursor to exactly the current upstream head whenever the
head fetch succeeds; for a STON-only chat, warmup aborts on the
uninitialized `newest_dedust_ts` before the baselines are written and
leaves the cursor unchanged; and the first-poll initialization path,
used when no cursor was stored, starts from `max 0 (head - 5)` — a
five-block margin below the head. -/
theorem C5_amended :
    (∀ (cfg : ChatCfg) (env : CycleEnv) (st : PollState) (h : Int),
      cfg.dedust_pool ≠ "" → env.latest = some h →
      (warmupApply cfg env st).ston_last_block = some h) ∧
    (∀ (cfg : ChatCfg) (env : CycleEnv) (st : PollState),
      cfg.dedust_pool = "" →
      (warmupApply cfg env st).ston_last_block = st.ston_last_block) ∧
    (∀ l : Int, stonInitCursor none l = max 0 (l - 5)) ∧
    (∀ (b l : Int), stonInitCursor (some b) l = b) := by
  refine ⟨?_, ?_, fun l => rfl, fun b l => rfl⟩
  · intro cfg env st h hd hl
    unfold warmupApply
    rw [if_neg hd, hl]
  · intro cfg env st hd
    unfold warmupApply
    rw [if_pos hd]

/-- C5 (witness): the amended theorem at a concrete warmup with a DeDust
pool (`c2cfg`, cursor baselined to the head 100) and at a STON-only chat
(`c1cfg`, warmup aborts and the cursor stays at its stored value). -/
theorem C5_amended_witness :
    (warmupApply c2cfg c2env c2st).ston_last_block = some 100 ∧
    (warmupApply c1cfg c1env c1st).ston_last_block = c1st.ston_last_block :=
  ⟨C5_amended.1 c2cfg c2env c2st 100 (by decide) rfl,
   C5_amended.2.1 c1cfg c1env c1st rfl⟩

/-- C6 (witness): the inclusive boundary at `a = T = 5` — an event whose
TON amount equals the threshold is emitted. -/
theorem C6_threshold_inclusive_witness :
    (chatPollOnce (c6cfg 5) (c6env 5) c6st).2.length =
      if (5 : ℚ) < 5 then 0 else 1 :=
  C6_threshold_inclusive 5 5 (by decide)

/-- C7: fail-open on price outage.  With the minimum-buy unit set to USD
and the TON/USD price lookup unavailable, the effective native threshold
is 0, the threshold comparison never skips a non-negative amount, and a
concrete cycle with a one-million-dollar configured minimum still emits
the notification for a 1-TON buy. -/
theorem C7_fail_open :
    (∀ cfg : ChatCfg, cfg.min_buy_unit = "USD" →
      min_buy_ton_threshold cfg none = 0) ∧
    (∀ a : ℚ, 0 ≤ a → belowMin a 0 = false) ∧
    c7run.2.length = 1 := by
  refine ⟨?_, ?_, by decide⟩
  · intro cfg h
    unfold min_buy_ton_threshold
    rw [h]
    have e : ¬ (upperStr (orS "USD" "TON") ≠ "USD") := by decide
    dsimp only
    rw [if_neg e]
    split
    · rfl
    · rfl
  · intro a h
    simp [belowMin, not_lt.mpr h]

/-- C7 (witness): the fail-open threshold at a concrete configuration
and a concrete non-negative amount. -/
theorem C7_fail_open_witness :
    min_buy_ton_threshold c7cfg none = 0 ∧ belowMin 3 0 = false :=
  ⟨C7_fail_open.1 c7cfg rfl, C7_fail_open.2.1 3 (by decide)⟩

/-- C8 (counterexample): with the warmup instant at 50, a swap record
whose timestamp field is 0 — strictly before the warmup instant — is
still notified, because the ignore-before guard only fires for nonzero
timestamps. -/
theorem C8_counterexample :
    c1st.ignore_before_ts = 50 ∧
    c8run.2.map Emit.ts = [0] ∧
    (0 : Int) < 50 ∧
    c8run.2.length = 1 := by decide

/-- C9: unit rescale in the STON v2 fallback normalizer.  An asset amount
at or below the sanity threshold 1e8 is left unchanged; an amount above
it with a decimals hint `d` is divided by `10 ^ d`; in particular a raw
amount of 1.5e11 with hint 9 normalizes to exactly 150. -/
theorem C9_unit_rescale :
    (∀ (q : ℚ) (d : Option Nat), q ≤ 100000000 →
      ston_fallback_normalize_token q d = q) ∧
    ston_fallback_normalize_token 150000000000 (some 9) = 150 ∧
    (∀ (q : ℚ) (d : Nat), 100000000 < q →
      ston_fallback_normalize_token q (some d) = q / 10 ^ d) := by
  refine ⟨?_, ?_, ?_⟩
  · intro q d h
    cases d with
    | none => rfl
    | some d => simp [ston_fallback_normalize_token, not_lt.mpr h]
  · norm_num [ston_fallback_normalize_token]
  · intro q d h
    simp [ston_fallback_normalize_token, h]

/-- C9 (witness): the rescale theorem at concrete amounts. -/
theorem C9_unit_rescale_witness :
    ston_fallback_normalize_token 5 (some 9) = 5 ∧
    ston_fallback_normalize_token 200000000 (some 3) = 200000000 / 10 ^ 3 :=
  ⟨C9_unit_rescale.1 5 (some 9) (by decide),
   C9_unit_rescale.2.2 200000000 3 (by decide)⟩

/-- C10: `fetch_new_trades` returns, oldest first, exactly the records of
the newest-first page that precede the first record whose id equals the
stored `last_trade_id`, skipping records with no id; when the watermark
is absent (or empty) or does not occur in the page, every record with an
id is returned. -/
theorem C10_fetch_new_trades :
    ∀ (data : List GeckoTrade) (last : Option String),
      fetch_new_trades data last = fetch_new_trades_claimed data last := by
  intro data last
  cases last with
  | none =>
    unfold fetch_new_trades fetch_new_trades_claimed
    rw [fetchNewAux_none]
  | some l =>
    unfold fetch_new_trades fetch_new_trades_claimed
    rw [fetchNewAux_some]
